import Mathlib

/-!
Verification of the fiscal invoice signing and integrity-chain subsystem of the
humber-web/Restaurant repository (Django backend, `apps/payments`).

The Python sources are shallowly embedded: the database is a record of lists
(`DB`), Django model instances are records, queryset operations become list
filters / maximum selections, and Python exceptions become `Except` errors.
Decimal money amounts are represented exactly as integer cents; the source
formats `f"{float(x):.2f}"`, which round-trips exactly for the two-decimal
Decimal amounts stored by the application, so the cent-based formatting below
is faithful.  SHA-256 is implemented in full (FIPS 180-4) over `Nat` bytes.

Embedded functions (source file `apps/payments/services/fiscal_service.py`
unless noted): `generate_invoice_number`, `calculate_invoice_hash`,
`get_previous_invoice_hash`, `generate_iud`, `sign_invoice`,
`validate_hash_chain`; from `apps/payments/models.py`: `Payment.clean`,
`Payment.save`, `Payment.delete`, `Order.update_payment_status`
(`apps/orders/models.py`); from `apps/payments/serializers.py`:
`IssueCreditNoteSerializer.validate_original_invoice_id`; from
`apps/payments/services/saft_export_service.py`: `_add_sales_invoices` /
`_add_invoice`.
-/

set_option maxRecDepth 1000000

namespace Restaurant

/-! ## Python string and number primitives -/

/-- Decimal digit character, `digitChar d` for `d < 10` is `'0'`..`'9'`. -/
def digitChar (d : Nat) : Char := Char.ofNat (48 + d)

/-- Zero-padded `w`-digit big-endian decimal rendering of `n` (for `n < 10 ^ w`);
models Python `%0wd` padding. -/
def decPad : Nat → Nat → List Char
  | 0, _ => []
  | w + 1, n => digitChar (n / 10 ^ w) :: decPad w (n % 10 ^ w)

/-- Number of decimal digits of `n`, with explicit fuel (`fuel ≥ n` suffices). -/
def countDigits : Nat → Nat → Nat
  | 0, _ => 1
  | fuel + 1, n => if n ≤ 9 then 1 else countDigits fuel (n / 10) + 1

/-- Natural decimal rendering of `n`, as Python `str(n)`. -/
def natDec (n : Nat) : List Char := decPad (countDigits n n) n

/-- Python `f"{n:0wd}"` for a nonnegative value: zero-pad to width `w`,
natural rendering if `n` needs more than `w` digits. -/
def pyFmtNat (w n : Nat) : List Char := if n < 10 ^ w then decPad w n else natDec n

/-- Python `f"{i:0wd}"` for an `Int`: the sign counts toward the width. -/
def pyFmtInt (w : Nat) : Int → List Char
  | .ofNat n => pyFmtNat w n
  | .negSucc m => '-' :: pyFmtNat (w - 1) (m + 1)

/-- One step of Python `int(...)` digit scanning: digits accumulate into `acc`,
a single `'_'` is allowed between digits (CPython ≥ 3.6 grouping). -/
def digitsCore : List Char → Nat → Bool → Option Nat
  | [], acc, lastDigit => if lastDigit then some acc else none
  | c :: cs, acc, lastDigit =>
    if 48 ≤ c.toNat ∧ c.toNat ≤ 57 then digitsCore cs (acc * 10 + (c.toNat - 48)) true
    else if c = '_' then (if lastDigit then digitsCore cs acc false else none)
    else none

/-- Python `str.strip()` on a character list (ASCII whitespace). -/
def pyStrip (cs : List Char) : List Char :=
  ((cs.dropWhile Char.isWhitespace).reverse.dropWhile Char.isWhitespace).reverse

/-- Model of Python `int(s)`: optional surrounding whitespace, optional sign,
decimal digits with optional single underscores between digits; `none` models
the `ValueError` raised on any other input.  (Non-ASCII digits accepted by
CPython are not modelled; the repository only ever feeds it ASCII.) -/
def pyInt (s : String) : Option Int :=
  let cs := pyStrip s.data
  if cs.headD ' ' = '+' then (digitsCore (cs.drop 1) 0 false).map Int.ofNat
  else if cs.headD ' ' = '-' then (digitsCore (cs.drop 1) 0 false).map (fun n => -(n : Int))
  else (digitsCore cs 0 false).map Int.ofNat

/-- Python `str.zfill(w)`: left-pad with zeros to width `w`, keeping a leading
sign in front of the padding. -/
def zfill (w : Nat) (s : String) : String :=
  if w ≤ s.data.length then s else
  match s.data with
  | c :: cs =>
    if c = '+' ∨ c = '-' then ⟨c :: (List.replicate (w - s.data.length) '0' ++ cs)⟩
    else ⟨List.replicate (w - s.data.length) '0' ++ s.data⟩
  | [] => ⟨List.replicate w '0'⟩

/-- Python `str.upper()` (ASCII data in this application). -/
def pyUpper (s : String) : String := ⟨s.data.map Char.toUpper⟩

/-- Python `str.startswith(pre)`. -/
def pyStartsWith (pre cs : List Char) : Bool := cs.take pre.length == pre

/-- Lexicographic (codepoint, equivalently UTF-8 byte) strict comparison of
strings: the TEXT-column ordering used by `ORDER BY` on invoice numbers. -/
def strLtB (s t : String) : Bool := decide (List.Lex (· < ·) s.data t.data)

/-- Python `str.split('/')`: splitting `""` gives `[""]`, and every separator
occurrence opens a new field. -/
def splitSlash : List Char → List (List Char)
  | [] => [[]]
  | c :: cs =>
    if c = '/' then [] :: splitSlash cs
    else
      match splitSlash cs with
      | [] => [[c]]
      | p :: ps => (c :: p) :: ps

/-! ## SHA-256 (FIPS 180-4) over `Nat` bytes -/

/-- Truncate to 32 bits. -/
def w32 (n : Nat) : Nat := n % 4294967296

def rotr (n x : Nat) : Nat := w32 ((x >>> n) ||| (x <<< (32 - n)))

def ch32 (x y z : Nat) : Nat := (x &&& y) ^^^ ((x ^^^ 4294967295) &&& z)

def maj32 (x y z : Nat) : Nat := (x &&& y) ^^^ (x &&& z) ^^^ (y &&& z)

def bsig0 (x : Nat) : Nat := rotr 2 x ^^^ rotr 13 x ^^^ rotr 22 x

def bsig1 (x : Nat) : Nat := rotr 6 x ^^^ rotr 11 x ^^^ rotr 25 x

def ssig0 (x : Nat) : Nat := rotr 7 x ^^^ rotr 18 x ^^^ (x >>> 3)

def ssig1 (x : Nat) : Nat := rotr 17 x ^^^ rotr 19 x ^^^ (x >>> 10)

/-- The 64 SHA-256 round constants (decimal). -/
def shaK : List Nat :=
  [1116352408, 1899447441, 3049323471, 3921009573, 961987163, 1508970993,
   2453635748, 2870763221, 3624381080, 310598401, 607225278, 1426881987,
   1925078388, 2162078206, 2614888103, 3248222580, 3835390401, 4022224774,
   264347078, 604807628, 770255983, 1249150122, 1555081692, 1996064986,
   2554220882, 2821834349, 2952996808, 3210313671, 3336571891, 3584528711,
   113926993, 338241895, 666307205, 773529912, 1294757372, 1396182291,
   1695183700, 1986661051, 2177026350, 2456956037, 2730485921, 2820302411,
   3259730800, 3345764771, 3516065817, 3600352804, 4094571909, 275423344,
   430227734, 506948616, 659060556, 883997877, 958139571, 1322822218,
   1537002063, 1747873779, 1955562222, 2024104815, 2227730452, 2361852424,
   2428436474, 2756734187, 3204031479, 3329325298]

/-- The eight 32-bit working variables of the compression function. -/
structure H8 where
  a : Nat
  b : Nat
  c : Nat
  d : Nat
  e : Nat
  f : Nat
  g : Nat
  h : Nat
deriving DecidableEq

def shaInit : H8 :=
  ⟨1779033703, 3144134277, 1013904242, 2773480762, 1359893119, 2600822924, 528734635, 1541459225⟩

def shaRound (s : H8) (kw : Nat) : H8 :=
  let t1 := w32 (s.h + bsig1 s.e + ch32 s.e s.f s.g + kw)
  let t2 := w32 (bsig0 s.a + maj32 s.a s.b s.c)
  ⟨w32 (t1 + t2), s.a, s.b, s.c, w32 (s.d + t1), s.e, s.f, s.g⟩

def addH8 (x y : H8) : H8 :=
  ⟨w32 (x.a + y.a), w32 (x.b + y.b), w32 (x.c + y.c), w32 (x.d + y.d),
   w32 (x.e + y.e), w32 (x.f + y.f), w32 (x.g + y.g), w32 (x.h + y.h)⟩

/-- SHA-256 message padding: append `0x80`, zeros to 56 mod 64, then the
8-byte big-endian bit length. -/
def shaPad (msg : List Nat) : List Nat :=
  let L := msg.length
  msg ++ 128 :: List.replicate ((119 - L % 64) % 64) 0
      ++ (List.range 8).map (fun i => ((L * 8) >>> (8 * (7 - i))) &&& 255)

/-- Split into 64-byte blocks (any fuel `≥ length` is exact). -/
def chunks64 : Nat → List Nat → List (List Nat)
  | 0, _ => []
  | _ + 1, [] => []
  | fuel + 1, bs => bs.take 64 :: chunks64 fuel (bs.drop 64)

/-- The 16 big-endian 32-bit words of a 64-byte block. -/
def words16 (blk : List Nat) : List Nat :=
  (List.range 16).map (fun i =>
    blk.getD (4 * i) 0 * 16777216 + blk.getD (4 * i + 1) 0 * 65536 +
    blk.getD (4 * i + 2) 0 * 256 + blk.getD (4 * i + 3) 0)

/-- Extend the 16-word message schedule to 64 words (48 extension steps). -/
def extendW : Nat → List Nat → List Nat
  | 0, ws => ws
  | fuel + 1, ws =>
    let n := ws.length
    extendW fuel (ws ++ [w32 (ssig1 (ws.getD (n - 2) 0) + ws.getD (n - 7) 0 +
                               ssig0 (ws.getD (n - 15) 0) + ws.getD (n - 16) 0)])

def compressBlock (hv : H8) (blk : List Nat) : H8 :=
  let ws := extendW 48 (words16 blk)
  let kw := List.zipWith (fun k w => w32 (k + w)) shaK ws
  addH8 hv (kw.foldl shaRound hv)

/-- Big-endian bytes of a 32-bit word. -/
def word4 (w : Nat) : List Nat :=
  [(w >>> 24) &&& 255, (w >>> 16) &&& 255, (w >>> 8) &&& 255, w &&& 255]

/-- SHA-256 digest (32 bytes) of a byte sequence. -/
def sha256Bytes (msg : List Nat) : List Nat :=
  let padded := shaPad msg
  let hv := (chunks64 padded.length padded).foldl compressBlock shaInit
  word4 hv.a ++ word4 hv.b ++ word4 hv.c ++ word4 hv.d ++
  word4 hv.e ++ word4 hv.f ++ word4 hv.g ++ word4 hv.h

def hexDigit (d : Nat) : Char := Char.ofNat (if d < 10 then 48 + d else 87 + d)

def hexOfBytes (bs : List Nat) : List Char :=
  bs.flatMap (fun b => [hexDigit (b / 16), hexDigit (b % 16)])

/-- UTF-8 encoding of one character. -/
def utf8Char (c : Char) : List Nat :=
  let n := c.toNat
  if n < 128 then [n]
  else if n < 2048 then [192 + n / 64, 128 + n % 64]
  else if n < 65536 then [224 + n / 4096, 128 + (n / 64) % 64, 128 + n % 64]
  else [240 + n / 262144, 128 + (n / 4096) % 64, 128 + (n / 64) % 64, 128 + n % 64]

def utf8Bytes (s : String) : List Nat := s.data.flatMap utf8Char

/-- Model of Python `hashlib.sha256(s.encode('utf-8')).hexdigest()`. -/
def sha256Hex (s : String) : String := ⟨hexOfBytes (sha256Bytes (utf8Bytes s))⟩

/-! ## Calendar dates -/

/-- A calendar date (`datetime.date`). -/
structure SDate where
  year : Nat
  month : Nat
  day : Nat
deriving DecidableEq

/-- Order-reflecting numeric key of a date: for valid calendar dates
(`month ≤ 12`, `day ≤ 31`) this orders exactly as the SQL DATE column does. -/
def SDate.key (d : SDate) : Nat := d.year * 10000 + d.month * 100 + d.day

/-- Python `date.strftime('%Y-%m-%d')`. -/
def isoDate (d : SDate) : String :=
  ⟨pyFmtNat 4 d.year ++ '-' :: pyFmtNat 2 d.month ++ '-' :: pyFmtNat 2 d.day⟩

/-- Python `date.strftime('%Y%m%d')`. -/
def ymd8 (d : SDate) : String :=
  ⟨pyFmtNat 4 d.year ++ pyFmtNat 2 d.month ++ pyFmtNat 2 d.day⟩

/-- Sort key of a nullable DATE column under descending order: SQL NULLs sort
below every date, so `none` is given the smallest key. -/
def dateOptKey : Option SDate → Nat
  | none => 0
  | some d => d.key + 1

/-! ## Data model (`apps/payments/models.py`, `apps/orders/models.py`,
`apps/common/models.py`) -/

/-- The singleton `CompanySettings` row — only the fields the fiscal core
reads. -/
structure CompanySettings where
  tax_registration_number : String
  invoice_series : String
  credit_note_series : String
  receipt_series : String
  software_certificate_number : String
deriving DecidableEq

/-- An `orders.Order` row — only the fields the fiscal core touches.  Money
fields are exact integer cents.  `updated_at` is the `auto_now` timestamp
Django rewrites on every `Order.save()`. -/
structure Order where
  orderID : Nat
  totalAmount : Nat
  totalIva : Nat
  grandTotal : Nat
  paymentStatus : String
  updated_at : Nat
deriving DecidableEq

/-- A `payments.Payment` row.  `referenced_document` holds the foreign key
(`paymentID`) of the referenced payment.  `signed_at` is a timestamp. -/
structure Payment where
  paymentID : Nat
  orderId : Nat
  amount : Nat
  payment_method : String
  payment_status : String
  transaction_id : Option String
  invoice_no : Option String
  invoice_date : Option SDate
  invoice_type : String
  invoice_hash : Option String
  previous_invoice_hash : Option String
  hash_algorithm : String
  software_certificate_number : String
  iud : Option String
  is_signed : Bool
  signed_at : Option Nat
  customer_tax_id : Option String
  customer_name : Option String
  referenced_document : Option Nat
  credit_note_reason : Option String
deriving DecidableEq

/-- The persistent state visible to the fiscal subsystem. -/
structure DB where
  settings : CompanySettings
  orders : List Order
  payments : List Payment
deriving DecidableEq

/-- Errors raised by the embedded operations. -/
inductive FiscalError where
  | validation (field msg : String)
  | uniqueViolation (field : String)
  | immutableSigned (msg : String)
  | alreadySigned (msg : String)
  | notFound
deriving DecidableEq

/-- `payment.order` (`ForeignKey`); referential integrity makes the lookup
total, the default is never reached on states with intact foreign keys. -/
def orderOf (db : DB) (oid : Nat) : Order :=
  (db.orders.find? (fun o => o.orderID == oid)).getD ⟨0, 0, 0, 0, "PENDING", 0⟩

/-- `payment.referenced_document` as a related-object lookup. -/
def refDoc (db : DB) (p : Payment) : Option Payment :=
  match p.referenced_document with
  | some rid => db.payments.find? (fun q => q.paymentID == rid)
  | none => none

/-! ## Generic queryset helpers -/

/-- First row of an `ORDER BY` that prefers `better`-greater rows: the fold
returns a row `m` of `l` with no row strictly better than `m`. -/
def pickMax (better : α → α → Bool) (l : List α) : Option α :=
  l.foldl (fun acc q =>
    match acc with
    | none => some q
    | some m => if better q m then some q else some m) none

/-- Strict descending comparison on `(invoice_date, paymentID)` used by
`order_by('-invoice_date', '-paymentID')`. -/
def pairGt (a b : Nat × Nat) : Bool := b.1 < a.1 || (b.1 == a.1 && b.2 < a.2)

/-! ## FiscalService (`apps/payments/services/fiscal_service.py`) -/

/-- `series_map.get(invoice_type, 'FT A')` over the settings-configured
series. -/
def seriesFor (st : CompanySettings) (t : String) : String :=
  if t = "FT" then st.invoice_series
  else if t = "NC" then st.credit_note_series
  else if t = "TV" then st.receipt_series
  else if t = "FR" then st.invoice_series
  else "FT A"

/-- The `f"{series}/{current_year}/"` filter pattern. -/
def invoiceNoPfx (st : CompanySettings) (year : Nat) (t : String) : List Char :=
  (seriesFor st t).data ++ '/' :: (natDec year ++ ['/'])

/-- `FiscalService.generate_invoice_number`: find the last (string-descending)
stored `invoice_no` with the `series/year/` prefix and the same
`invoice_type`, parse its third `/`-separated field, and format
`f"{series}/{current_year}/{next_number:05d}"`. -/
def generate_invoice_number (db : DB) (today_year : Nat) (invoice_type : String) : String :=
  let pfx := invoiceNoPfx db.settings today_year invoice_type
  let matching := db.payments.filter (fun p =>
    pyStartsWith pfx (p.invoice_no.getD "").data && p.invoice_type == invoice_type)
  let last_payment := pickMax
    (fun q m => strLtB (m.invoice_no.getD "") (q.invoice_no.getD "")) matching
  let next_number : Int :=
    match last_payment with
    | some lp =>
      if (lp.invoice_no.getD "") ≠ "" then
        let parts := splitSlash (lp.invoice_no.getD "").data
        if parts.length = 3 then
          match pyInt ⟨parts.getD 2 []⟩ with
          | some last_number => last_number + 1
          | none => 1
        else 1
      else 1
    | none => 1
  ⟨pfx ++ pyFmtInt 5 next_number⟩

/-- The `invoice_date.strftime('%Y-%m-%d') if invoice_date else ''` input of
the hash. -/
def invoiceDateStr (p : Payment) : String :=
  match p.invoice_date with
  | some d => isoDate d
  | none => ""

/-- The `f"{float(order.grandTotal):.2f}"` input of the hash (exact for
two-decimal amounts). -/
def fmt2 (cents : Nat) : String := ⟨natDec (cents / 100) ++ '.' :: decPad 2 (cents % 100)⟩

/-- `FiscalService.calculate_invoice_hash`: SHA-256 over the concatenation of
ISO date, invoice number, two-decimal grand total and previous hash. -/
def calculate_invoice_hash (db : DB) (p : Payment) : String :=
  let invoice_date_str := invoiceDateStr p
  let invoice_no := p.invoice_no.getD ""
  let grand_total_str := fmt2 (orderOf db p.orderId).grandTotal
  let previous_hash := p.previous_invoice_hash.getD ""
  sha256Hex (invoice_date_str ++ invoice_no ++ grand_total_str ++ previous_hash)

/-- `FiscalService.get_previous_invoice_hash`: hash of the first row of
`filter(invoice_type=t, is_signed=True, invoice_hash__isnull=False)
.order_by('-invoice_date', '-paymentID')`, or `''` when none exists. -/
def get_previous_invoice_hash (db : DB) (invoice_type : String) : String :=
  let candidates := db.payments.filter (fun p =>
    p.invoice_type == invoice_type && p.is_signed && p.invoice_hash.isSome)
  match pickMax (fun q m =>
      pairGt (dateOptKey q.invoice_date, q.paymentID) (dateOptKey m.invoice_date, m.paymentID))
      candidates with
  | some lp => lp.invoice_hash.getD ""
  | none => ""

/-- `FiscalService.generate_iud`: upper-cased first 45 hex characters of the
SHA-256 of country, 8-digit date, 9-digit NIF, document type and the
slash/space-stripped invoice number.  `now_date` models `datetime.now()`,
used only when `invoice_date` is unset. -/
def generate_iud (st : CompanySettings) (now_date : SDate) (p : Payment) : String :=
  let country := "CV"
  let date_str := match p.invoice_date with
    | some d => ymd8 d
    | none => ymd8 now_date
  let nif : String := ⟨(zfill 9 st.tax_registration_number).data.take 9⟩
  let doc_type := p.invoice_type
  let invoice_no_clean : String :=
    if (p.invoice_no.getD "") ≠ "" then
      ⟨((p.invoice_no.getD "").data.filter (fun c => c ≠ '/')).filter (fun c => c ≠ ' ')⟩
    else ""
  let iud_string := country ++ date_str ++ nif ++ doc_type ++ invoice_no_clean
  pyUpper ⟨(sha256Hex iud_string).data.take 45⟩

/-! ## Payment.clean / save / delete (`apps/payments/models.py`) and
Order.update_payment_status (`apps/orders/models.py`) -/

/-- `Payment.clean`: credit-note referential rules.  A dangling
`referenced_document` foreign key cannot occur on a consistent database, so
the related object lookup is total there. -/
def payment_clean (db : DB) (p : Payment) : Except FiscalError Unit :=
  if p.invoice_type = "NC" then
    if p.referenced_document.isNone then
      .error (.validation "referenced_document" "Credit Notes must reference an original document")
    else if (p.credit_note_reason.getD "") = "" then
      .error (.validation "credit_note_reason" "Credit Notes must have a reason code")
    else if ((refDoc db p).map (fun r => r.invoice_type)).getD "" = "NC" then
      .error (.validation "referenced_document" "Cannot reference another Credit Note")
    else .ok ()
  else
    if p.referenced_document.isSome then
      .error (.validation "referenced_document" "Only Credit Notes can reference documents")
    else .ok ()

/-- The unique-field validation `full_clean` performs for the
`unique=True` columns `invoice_no` and `iud` (NULLs never collide). -/
def validate_unique (db : DB) (p : Payment) : Except FiscalError Unit :=
  if db.payments.any (fun q =>
      q.paymentID != p.paymentID && q.invoice_no.isSome && q.invoice_no == p.invoice_no) then
    .error (.uniqueViolation "invoice_no")
  else if db.payments.any (fun q =>
      q.paymentID != p.paymentID && q.iud.isSome && q.iud == p.iud) then
    .error (.uniqueViolation "iud")
  else .ok ()

/-- `Order.update_payment_status`, invoked by `Payment.save` on
`self.order`: recompute `paymentStatus` from the order's COMPLETED payments
and save the order (`auto_now` bumps `updated_at`). -/
def order_update_payment_status (db : DB) (oid : Nat) (now : Nat) : DB :=
  { db with orders := db.orders.map (fun o =>
      if o.orderID == oid then
        { o with
          paymentStatus :=
            if db.payments.any (fun q => q.orderId == oid && q.payment_status == "COMPLETED")
            then "PAID" else "PENDING",
          updated_at := now }
      else o) }

/-- Store `p` at its primary key (UPDATE), or append it (INSERT). -/
def upsert (ps : List Payment) (p : Payment) : List Payment :=
  if ps.any (fun q => q.paymentID == p.paymentID) then
    ps.map (fun q => if q.paymentID == p.paymentID then p else q)
  else ps ++ [p]

/-- `Payment.save`: `full_clean` (model clean, then unique validation), then
the immutability guard against the old stored row, then the write, then
`self.order.update_payment_status()`. -/
def payment_save (db : DB) (p : Payment) (now : Nat) : Except FiscalError DB :=
  match payment_clean db p with
  | .error e => .error e
  | .ok _ =>
    match validate_unique db p with
    | .error e => .error e
    | .ok _ =>
      match db.payments.find? (fun q => q.paymentID == p.paymentID) with
      | some old =>
        if old.is_signed then
          .error (.immutableSigned "Cannot modify a signed payment/invoice. Signed fiscal documents are immutable. To correct, issue a Credit Note (NC).")
        else
          .ok (order_update_payment_status { db with payments := upsert db.payments p }
            p.orderId now)
      | none =>
        .ok (order_update_payment_status { db with payments := upsert db.payments p }
          p.orderId now)

/-- `Payment.delete`: signed payments cannot be deleted. -/
def payment_delete (db : DB) (p : Payment) : Except FiscalError DB :=
  if p.is_signed then
    .error (.immutableSigned "Cannot delete a signed payment/invoice. Signed fiscal documents are immutable. To cancel, issue a Credit Note (NC).")
  else
    .ok { db with payments := db.payments.filter (fun q => q.paymentID != p.paymentID) }

/-- Steps 1–8 of `FiscalService.sign_invoice`: fill the fiscal fields of the
in-memory payment instance (number, date, previous hash, hash, algorithm,
IUD, certificate, signed flag and timestamp). -/
def signedFields (db : DB) (today : SDate) (now : Nat) (p : Payment) : Payment :=
  let st := db.settings
  let p1 := if (p.invoice_no.getD "") = "" then
      { p with invoice_no := some (generate_invoice_number db today.year p.invoice_type) }
    else p
  let p2 := if p1.invoice_date.isNone then { p1 with invoice_date := some today } else p1
  let p3 := { p2 with previous_invoice_hash := some (get_previous_invoice_hash db p2.invoice_type) }
  let p4 := { p3 with invoice_hash := some (calculate_invoice_hash db p3) }
  let p5 := { p4 with hash_algorithm := "SHA256" }
  let p6 := { p5 with iud := some (generate_iud st today p5) }
  let p7 := { p6 with software_certificate_number := st.software_certificate_number }
  { p7 with is_signed := true, signed_at := some now }

/-- `FiscalService.sign_invoice` (`@transaction.atomic`): fill the fiscal
fields and save; an error from `save` rolls the transaction back, so the
caller's state is unchanged exactly when the result is `.error`. -/
def sign_invoice (db : DB) (today : SDate) (now : Nat) (p : Payment) :
    Except FiscalError (Payment × DB) :=
  match payment_save db (signedFields db today now p) now with
  | .ok db2 => .ok (signedFields db today now p, db2)
  | .error e => .error e

/-- `SignInvoiceView.post`: reject already-signed payments up front, then
sign. -/
def sign_invoice_view_post (db : DB) (today : SDate) (now : Nat) (pid : Nat) :
    Except FiscalError (Payment × DB) :=
  match db.payments.find? (fun q => q.paymentID == pid) with
  | none => .error .notFound
  | some p =>
    if p.is_signed then
      .error (.alreadySigned "Invoice is already signed and cannot be modified.")
    else sign_invoice db today now p

/-- `FiscalService.validate_hash_chain`: recompute the hash from the stored
fields and compare with the stored hash (a `None` stored hash never equals a
digest string). -/
def validate_hash_chain (db : DB) (p : Payment) : Bool :=
  match p.invoice_hash with
  | some h => calculate_invoice_hash db p == h
  | none => false

/-- `IssueCreditNoteSerializer.validate_original_invoice_id`. -/
def validate_original_invoice_id (db : DB) (value : Nat) : Except FiscalError Nat :=
  match db.payments.find? (fun q => q.paymentID == value) with
  | none => .error (.validation "original_invoice_id" "Invoice not found")
  | some invoice =>
    if !invoice.is_signed then
      .error (.validation "original_invoice_id" "Can only issue credit notes for signed invoices")
    else if invoice.invoice_type = "NC" then
      .error (.validation "original_invoice_id" "Cannot issue a credit note against another credit note")
    else .ok value

/-! ## SAF-T export (`apps/payments/services/saft_export_service.py`) -/

/-- Insert into a `le`-sorted list, keeping stable order. -/
def ordInsert (le : α → α → Bool) (a : α) : List α → List α
  | [] => [a]
  | b :: l => if le a b then a :: b :: l else b :: ordInsert le a l

/-- Stable insertion sort, the model of SQL `ORDER BY`. -/
def isort (le : α → α → Bool) : List α → List α
  | [] => []
  | a :: l => ordInsert le a (isort le l)

/-- The `order_by('invoice_date', 'invoice_no')` comparison (ascending; the
range filter has already excluded NULL dates, signed rows carry numbers). -/
def saftKeyLe (p q : Payment) : Bool :=
  let kp := dateOptKey p.invoice_date
  let kq := dateOptKey q.invoice_date
  kp < kq || (kp == kq && !(strLtB (q.invoice_no.getD "") (p.invoice_no.getD "")))

/-- The queryset of `_add_sales_invoices`: signed payments with
`invoice_date` in `[d1, d2]` (a NULL date never satisfies a range lookup). -/
def saftSelect (db : DB) (d1 d2 : SDate) : List Payment :=
  db.payments.filter (fun p => p.is_signed &&
    (match p.invoice_date with
     | some d => decide (d1.key ≤ d.key) && decide (d.key ≤ d2.key)
     | none => false))

/-- The `DocumentReference` block of a credit-note entry. -/
structure SaftDocRef where
  invoiceNo : Option String
  invoiceDate : Option SDate
deriving DecidableEq

/-- One `<Invoice>` element as `_add_invoice` serializes it; `none` fields are
elements the source does not emit for that payment. -/
structure SaftInvoice where
  invoiceNo : Option String
  invoiceType : String
  invoiceDate : Option SDate
  docRef : Option SaftDocRef
  issueReasonCode : Option String
  hashText : Option String
  hashControl : Option String
  previousHashText : Option String
deriving DecidableEq

/-- `_add_invoice`: the `Hash` element appears only for a truthy stored hash,
`PreviousHash` only when the stored previous hash is also truthy, and the
`DocumentReference`/`IssueReasonCode` elements only on credit notes with a
referenced document (resp. a truthy reason code). -/
def saftEntry (db : DB) (p : Payment) : SaftInvoice :=
  { invoiceNo := p.invoice_no
    invoiceType :=
      if p.invoice_type = "FT" then "FT"
      else if p.invoice_type = "NC" then "NC"
      else if p.invoice_type = "TV" then "TV"
      else if p.invoice_type = "FR" then "FR"
      else "FT"
    invoiceDate := p.invoice_date
    docRef :=
      if p.invoice_type = "NC" then
        match refDoc db p with
        | some r => some { invoiceNo := r.invoice_no, invoiceDate := r.invoice_date }
        | none => none
      else none
    issueReasonCode :=
      if p.invoice_type = "NC" ∧ (refDoc db p).isSome ∧ (p.credit_note_reason.getD "") ≠ "" then
        p.credit_note_reason
      else none
    hashText := if (p.invoice_hash.getD "") ≠ "" then p.invoice_hash else none
    hashControl :=
      if (p.invoice_hash.getD "") ≠ "" then
        some (if p.software_certificate_number ≠ "" then p.software_certificate_number else "0")
      else none
    previousHashText :=
      if (p.invoice_hash.getD "") ≠ "" ∧ (p.previous_invoice_hash.getD "") ≠ "" then
        p.previous_invoice_hash
      else none }

/-- `_add_sales_invoices`: the ordered list of `<Invoice>` entries of the
export.  The export only reads the database; it is a pure function of `db`
and returns no modified state. -/
def saft_sales_invoices (db : DB) (d1 d2 : SDate) : List SaftInvoice :=
  (isort saftKeyLe (saftSelect db d1 d2)).map (saftEntry db)

/-! ## Claim-side definitions

The following definitions formalise the wording of spec claims (not the
source code); they exist to state refutations and amended claims against the
embedded source functions above. -/

/-- Claim wording: the numeric value allocated under `(series, year)` by an
invoice number string of the form `series/year/N`. -/
def claimSeriesYearNum (series : String) (year : Nat) (s : String) : Option Int :=
  let pfx := series.data ++ '/' :: (natDec year ++ ['/'])
  if pyStartsWith pfx s.data then pyInt ⟨s.data.drop pfx.length⟩ else none

/-- Claim wording: the highest allocated number for a given series and year. -/
def claimHighestAllocated (db : DB) (series : String) (year : Nat) : Option Int :=
  (db.payments.filterMap (fun p => p.invoice_no.bind (claimSeriesYearNum series year))).max?

/-- Claim wording: the most recently signed document of a document type (by
signing timestamp). -/
def claimMostRecentlySigned (db : DB) (t : String) : Option Payment :=
  pickMax (fun q m => decide ((m.signed_at.getD 0) < (q.signed_at.getD 0)))
    (db.payments.filter (fun p => p.invoice_type == t && p.is_signed))

/-- Claim wording: the document that was the chain predecessor of `p` (same
document type) at the time `p` was signed — the most recently signed other
document of the type with an earlier signing timestamp. -/
def claimPredecessor (db : DB) (p : Payment) : Option Payment :=
  pickMax (fun q m => decide ((m.signed_at.getD 0) < (q.signed_at.getD 0)))
    (db.payments.filter (fun q => q.invoice_type == p.invoice_type && q.is_signed &&
      q.paymentID != p.paymentID && decide ((q.signed_at.getD 0) < (p.signed_at.getD 0))))

/-- Iterated signing: sign each draft in order, stopping at the first error —
the claim's sequence of N successful signings in one series/year. -/
def signRun (today : SDate) (now : Nat) : DB → List Payment → Except FiscalError DB
  | db, [] => .ok db
  | db, p :: ps =>
    match sign_invoice db today now p with
    | .ok r => signRun today now r.2 ps
    | .error e => .error e

/-- The stored invoice numbers carrying a given series/year prefix for a
document type — the set of allocated numbers the claim speaks about. -/
def allocatedNos (pfx : List Char) (t : String) (ps : List Payment) : List String :=
  ps.filterMap (fun q =>
    if pyStartsWith pfx (q.invoice_no.getD "").data && q.invoice_type == t
    then some (q.invoice_no.getD "") else none)

/-! ## Concrete fixtures

Small concrete database states used to instantiate the theorems and to
exhibit counterexamples. -/

def stA : CompanySettings := ⟨"123456789", "FT A", "NC A", "TV A", "0"⟩

def ordA : Order := ⟨1, 10000, 1500, 11500, "PENDING", 0⟩

/-- A draft FT payment for order 1, no fiscal fields yet. -/
def draftA : Payment :=
  { paymentID := 1, orderId := 1, amount := 11500, payment_method := "CASH",
    payment_status := "COMPLETED", transaction_id := none,
    invoice_no := none, invoice_date := none, invoice_type := "FT",
    invoice_hash := none, previous_invoice_hash := none, hash_algorithm := "SHA256",
    software_certificate_number := "0", iud := none, is_signed := false, signed_at := none,
    customer_tax_id := none, customer_name := none, referenced_document := none,
    credit_note_reason := none }

/-- 64-character placeholder digests for fixture chain fields. -/
def hashA : String := "aaaaaaaaaaaaaaaaaaaaaaaaaaaaaaaaaaaaaaaaaaaaaaaaaaaaaaaaaaaaaaaa"

def hashB : String := "bbbbbbbbbbbbbbbbbbbbbbbbbbbbbbbbbbbbbbbbbbbbbbbbbbbbbbbbbbbbbbbb"

def zeros64 : String := "0000000000000000000000000000000000000000000000000000000000000000"

/-- A signed FT payment stored at pid 1 (fixture). -/
def signedA : Payment :=
  { draftA with invoice_no := some "FT A/2025/00001", invoice_date := some ⟨2025, 1, 2⟩,
                invoice_hash := some hashA, previous_invoice_hash := some "",
                iud := some "IUDA", is_signed := true, signed_at := some 100 }

def dbSigned : DB := ⟨stA, [ordA], [signedA]⟩

/-- An update of `signedA` that violates model validation (a non-NC payment
with a referenced document). -/
def badUpdate : Payment := { signedA with referenced_document := some 1 }

/-- Fixture for C3: payment signed FIRST (`signed_at = 100`) but carrying the
LATER invoice date. -/
def pA3 : Payment :=
  { draftA with paymentID := 11, invoice_no := some "FT A/2025/00002",
                invoice_date := some ⟨2025, 6, 1⟩, invoice_hash := some hashA,
                previous_invoice_hash := some "", iud := some "IA",
                is_signed := true, signed_at := some 100 }

/-- Fixture for C3: payment signed LAST (`signed_at = 200`) but carrying the
EARLIER invoice date. -/
def pB3 : Payment :=
  { draftA with paymentID := 12, invoice_no := some "FT A/2025/00001",
                invoice_date := some ⟨2025, 1, 1⟩, invoice_hash := some hashB,
                previous_invoice_hash := some "", iud := some "IB",
                is_signed := true, signed_at := some 200 }

def dbAB : DB := ⟨stA, [ordA], [pA3, pB3]⟩

def draftC : Payment := { draftA with paymentID := 13 }

/-- Fixture for C6: the chain predecessor of `paymentP6` (same type, earlier
date and earlier signing time). -/
def paymentQ6 : Payment :=
  { draftA with paymentID := 21, invoice_no := some "FT A/2025/00001",
                invoice_date := some ⟨2025, 1, 1⟩, invoice_hash := some hashA,
                previous_invoice_hash := some "", iud := some "IQ",
                is_signed := true, signed_at := some 100 }

/-- Fixture for C6: a payment whose stored `previous_invoice_hash` is a
forged value (not its predecessor's hash) but whose stored `invoice_hash` is
the correct SHA-256 of its own fields including the forged value. -/
def paymentP6 : Payment :=
  { draftA with paymentID := 22, invoice_no := some "FT A/2025/00002",
                invoice_date := some ⟨2025, 1, 2⟩,
                invoice_hash := some "c783974f6baaf899c1005529f5bf8e019f005f7d26019b2483c575f97b3ec089",
                previous_invoice_hash := some zeros64, iud := some "IP",
                is_signed := true, signed_at := some 200 }

def dbC6 : DB := ⟨stA, [ordA], [paymentQ6, paymentP6]⟩

def db0 : DB := ⟨stA, [ordA], [draftA]⟩

/-- Fixture for C1: an FR payment carrying a number in the series that FT and
FR share (`series_map` sends both to `invoice_series`). -/
def pFR1 : Payment :=
  { draftA with paymentID := 31, invoice_type := "FR",
                invoice_no := some "FT A/2025/00001", invoice_date := some ⟨2025, 1, 2⟩,
                invoice_hash := some hashA, is_signed := true, signed_at := some 100 }

def dbFR : DB := ⟨stA, [ordA], [pFR1]⟩

/-- Fixture for C1: stored FT number 99999. -/
def p99a : Payment :=
  { draftA with paymentID := 32, invoice_no := some "FT A/2025/99999", is_signed := true }

/-- Fixture for C1: stored FT number 100000 (six digits, `%05d` does not
truncate). -/
def p99b : Payment :=
  { draftA with paymentID := 33, invoice_no := some "FT A/2025/100000", is_signed := true }

def db99 : DB := ⟨stA, [ordA], [p99a, p99b]⟩

/-- Fixture for the C1 witness: a single stored FT number 00007. -/
def pSeven : Payment :=
  { draftA with paymentID := 34, invoice_no := some "FT A/2025/00007", is_signed := true }

def dbSeven : DB := ⟨stA, [ordA], [pSeven]⟩

/-- A store with no payments, for the C1 signing-run witness. -/
def dbE : DB := ⟨stA, [ordA], []⟩

/-! ## General lemmas: strings, digits, fold maxima -/

theorem strMk_inj {l l' : List Char} : (⟨l⟩ : String) = ⟨l'⟩ ↔ l = l' := by
  constructor
  · intro h
    injection h
  · intro h
    rw [h]

theorem strMk_ne_empty {l : List Char} (h : l ≠ []) : (⟨l⟩ : String) ≠ "" := by
  intro hc
  exact h (strMk_inj.mp hc)

theorem take_append_self (a b : List α) : (a ++ b).take a.length = a := by
  induction a with
  | nil => rfl
  | cons x xs ih => simp [List.take, ih]

theorem pyStartsWith_append (pfx rest : List Char) : pyStartsWith pfx (pfx ++ rest) = true := by
  simp [pyStartsWith, take_append_self]

/-- A character of a zero-padded decimal rendering is a decimal digit. -/
theorem decPad_mem : ∀ (w n : Nat), n < 10 ^ w → ∀ c ∈ decPad w n, ∃ d, d < 10 ∧ c = digitChar d := by
  intro w
  induction w with
  | zero => intro n _ c hc; simp [decPad] at hc
  | succ w ih =>
    intro n hn c hc
    rw [decPad] at hc
    rcases List.mem_cons.mp hc with hc | hc
    · refine ⟨n / 10 ^ w, ?_, hc⟩
      have h10 : 10 ^ (w + 1) = 10 ^ w * 10 := by ring
      rw [h10] at hn
      exact Nat.div_lt_of_lt_mul hn
    · exact ih (n % 10 ^ w) (Nat.mod_lt _ (Nat.pos_pow_of_pos w (by norm_num))) c hc

theorem digitChar_toNat {d : Nat} (h : d < 10) : (digitChar d).toNat = 48 + d := by
  interval_cases d <;> rfl

theorem digitChar_not_special {d : Nat} (h : d < 10) :
    digitChar d ≠ '/' ∧ (digitChar d).isWhitespace = false ∧
    digitChar d ≠ '+' ∧ digitChar d ≠ '-' ∧
    (48 ≤ (digitChar d).toNat ∧ (digitChar d).toNat ≤ 57) := by
  interval_cases d <;> exact ⟨by decide, by decide, by decide, by decide, by decide, by decide⟩

theorem digitChar_lt {a b : Nat} (hab : a < b) (hb : b < 10) : digitChar a < digitChar b := by
  interval_cases b <;> interval_cases a <;> first | decide | omega

/-- Strict monotonicity of fixed-width decimal renderings in the
lexicographic character order. -/
theorem decPad_lex_lt : ∀ (w a b : Nat), a < b → b < 10 ^ w →
    List.Lex (· < ·) (decPad w a) (decPad w b) := by
  intro w
  induction w with
  | zero => intro a b hab hb; omega
  | succ w ih =>
    intro a b hab hb
    have h10 : 10 ^ (w + 1) = 10 ^ w * 10 := by ring
    have hbq : b / 10 ^ w < 10 := Nat.div_lt_of_lt_mul (h10 ▸ hb)
    have hq : a / 10 ^ w ≤ b / 10 ^ w := Nat.div_le_div_right (Nat.le_of_lt hab)
    rw [decPad, decPad]
    rcases Nat.lt_or_ge (a / 10 ^ w) (b / 10 ^ w) with hlt | hge
    · exact List.Lex.rel (digitChar_lt hlt hbq)
    · have heq : a / 10 ^ w = b / 10 ^ w := Nat.le_antisymm hq hge
      rw [heq]
      refine List.Lex.cons (ih _ _ ?_ (Nat.mod_lt _ (Nat.pos_pow_of_pos w (by norm_num))))
      have ha' := Nat.div_add_mod a (10 ^ w)
      have hb' := Nat.div_add_mod b (10 ^ w)
      rw [heq] at ha'
      omega

/-- Strings sharing a prefix compare by their zero-padded numeric suffixes. -/
theorem strLtB_pad {pfx : List Char} {w a b : Nat} (hab : a < b) (hb : b < 10 ^ w) :
    strLtB ⟨pfx ++ decPad w a⟩ ⟨pfx ++ decPad w b⟩ = true :=
  decide_eq_true (List.Lex.append_left _ (decPad_lex_lt w a b hab hb) pfx)

theorem strLtB_irrefl (s : String) : strLtB s s = false := by
  simp only [strLtB, decide_eq_false_iff_not]
  exact @irrefl (List Char) (List.Lex (· < ·)) _ s.data

theorem strLtB_trans {a b c : String} (h1 : strLtB a b = true) (h2 : strLtB b c = true) :
    strLtB a c = true := by
  simp only [strLtB, decide_eq_true_eq] at *
  exact IsTrans.trans _ _ _ h1 h2

theorem strLtB_negtrans {a b c : String} (h1 : strLtB b a = false) (h2 : strLtB c a = true) :
    strLtB c b = true := by
  simp only [strLtB, decide_eq_true_eq, decide_eq_false_iff_not] at *
  have ht := @trichotomous (List Char) (List.Lex (· < ·)) _ b.data a.data
  rcases ht with h | h | h
  · exact absurd h h1
  · rw [← h] at h2; exact h2
  · exact IsTrans.trans _ _ _ h2 h

/-! ### `pickMax` characterization -/

theorem pickMax_aux_mem (b : α → α → Bool) :
    ∀ (l : List α) (acc r : α),
      l.foldl (fun acc q =>
        match acc with
        | none => some q
        | some m => if b q m then some q else some m) (some acc) = some r →
      r = acc ∨ r ∈ l := by
  intro l
  induction l with
  | nil => intro acc r h; simp at h; exact Or.inl h.symm
  | cons a l ih =>
    intro acc r h
    simp only [List.foldl] at h
    by_cases hba : b a acc
    · rw [if_pos hba] at h
      rcases ih a r h with h1 | h1
      · exact Or.inr (by simp [h1])
      · exact Or.inr (List.mem_cons_of_mem _ h1)
    · rw [if_neg hba] at h
      rcases ih acc r h with h1 | h1
      · exact Or.inl h1
      · exact Or.inr (List.mem_cons_of_mem _ h1)

theorem pickMax_mem {b : α → α → Bool} {l : List α} {r : α} (h : pickMax b l = some r) :
    r ∈ l := by
  cases l with
  | nil => simp [pickMax] at h
  | cons a l =>
    rw [pickMax, List.foldl] at h
    rcases pickMax_aux_mem b l a r h with h1 | h1
    · simp [h1]
    · exact List.mem_cons_of_mem _ h1

theorem pickMax_aux_best (b : α → α → Bool)
    (hirr : ∀ x, b x x = false)
    (htr : ∀ x y z, b x y = true → b y z = true → b x z = true)
    (hneg : ∀ x y z, b x y = false → b x z = true → b y z = true) :
    ∀ (l : List α) (acc r : α),
      l.foldl (fun acc q =>
        match acc with
        | none => some q
        | some m => if b q m then some q else some m) (some acc) = some r →
      (∀ q ∈ l, b q r = false) ∧ b acc r = false := by
  intro l
  induction l with
  | nil =>
    intro acc r h
    simp at h
    subst h
    exact ⟨by intro q hq; simp at hq, hirr acc⟩
  | cons a l ih =>
    intro acc r h
    simp only [List.foldl] at h
    by_cases hba : b a acc
    · rw [if_pos hba] at h
      obtain ⟨hall, hacc⟩ := ih a r h
      refine ⟨?_, ?_⟩
      · intro q hq
        rcases List.mem_cons.mp hq with rfl | hq
        · exact hacc
        · exact hall q hq
      · by_cases hc : b acc r
        · have := htr a acc r hba hc
          rw [this] at hacc
          exact absurd hacc (by simp)
        · simpa using hc
    · rw [if_neg hba] at h
      obtain ⟨hall, hacc⟩ := ih acc r h
      refine ⟨?_, hacc⟩
      intro q hq
      rcases List.mem_cons.mp hq with rfl | hq
      · by_cases hc : b q r
        · have := hneg q acc r (by simpa using hba) hc
          rw [this] at hacc
          exact absurd hacc (by simp)
        · simpa using hc
      · exact hall q hq

/-- The fold underlying `first()` of a descending `ORDER BY` returns a row no
other row beats, provided the comparison is a strict order. -/
theorem pickMax_best {b : α → α → Bool} {l : List α} {r : α}
    (hirr : ∀ x, b x x = false)
    (htr : ∀ x y z, b x y = true → b y z = true → b x z = true)
    (hneg : ∀ x y z, b x y = false → b x z = true → b y z = true)
    (h : pickMax b l = some r) :
    ∀ q ∈ l, b q r = false := by
  cases l with
  | nil => simp [pickMax] at h
  | cons a l =>
    rw [pickMax, List.foldl] at h
    obtain ⟨hall, hacc⟩ := pickMax_aux_best b hirr htr hneg l a r h
    intro q hq
    rcases List.mem_cons.mp hq with rfl | hq
    · exact hacc
    · exact hall q hq

theorem pickMax_nil {b : α → α → Bool} : pickMax b ([] : List α) = none := rfl

theorem pickMax_isSome {b : α → α → Bool} {l : List α} (h : l ≠ []) :
    ∃ r, pickMax b l = some r := by
  cases l with
  | nil => exact absurd rfl h
  | cons a l =>
    rw [pickMax, List.foldl]
    clear h
    induction l generalizing a with
    | nil => exact ⟨a, rfl⟩
    | cons x l ih =>
      simp only [List.foldl]
      by_cases hbx : b x a
      · rw [if_pos hbx]; exact ih x
      · rw [if_neg hbx]; exact ih a

/-! ### Parsing the decimal renderings back -/

theorem dropWhile_eq_self_of {p : Char → Bool} {l : List Char} (h : ∀ c ∈ l, p c = false) :
    l.dropWhile p = l := by
  cases l with
  | nil => rfl
  | cons a l => rw [List.dropWhile_cons, h a (by simp)]; simp

theorem pyStrip_eq_self {l : List Char} (h : ∀ c ∈ l, c.isWhitespace = false) : pyStrip l = l := by
  rw [pyStrip, dropWhile_eq_self_of h, dropWhile_eq_self_of, List.reverse_reverse]
  intro c hc
  exact h c (List.mem_reverse.mp hc)

theorem digitsCore_decPad : ∀ (w acc : Nat) (b : Bool) (n : Nat), n < 10 ^ w →
    digitsCore (decPad w n) acc b =
      if w = 0 then (if b then some acc else none) else some (acc * 10 ^ w + n) := by
  intro w
  induction w with
  | zero =>
    intro acc b n hn
    simp [decPad, digitsCore]
  | succ w ih =>
    intro acc b n hn
    have hq : n / 10 ^ w < 10 := Nat.div_lt_of_lt_mul (by rw [← pow_succ]; exact hn)
    have hc : 48 ≤ (digitChar (n / 10 ^ w)).toNat ∧ (digitChar (n / 10 ^ w)).toNat ≤ 57 := by
      rw [digitChar_toNat hq]
      exact ⟨Nat.le_add_right _ _, Nat.add_le_add_left (Nat.lt_succ_iff.mp hq) 48⟩
    rw [decPad, digitsCore, if_pos hc, digitChar_toNat hq]
    have hstep : acc * 10 + (48 + n / 10 ^ w - 48) = acc * 10 + n / 10 ^ w :=
      congrArg (acc * 10 + ·) (Nat.add_sub_cancel_left 48 (n / 10 ^ w))
    rw [hstep, ih _ true _ (Nat.mod_lt _ (Nat.pos_pow_of_pos w (by norm_num)))]
    rcases Nat.eq_zero_or_pos w with hw | hw
    · subst hw
      norm_num
    · rw [if_neg (by omega), if_neg (by omega)]
      congr 1
      rw [pow_succ]
      have hdm : 10 ^ w * (n / 10 ^ w) + n % 10 ^ w = n := Nat.div_add_mod n (10 ^ w)
      generalize hq2 : n / 10 ^ w = q at hdm ⊢
      generalize hr2 : n % 10 ^ w = r at hdm ⊢
      rw [← hdm]
      ring

/-- All characters of a fixed-width decimal rendering are plain digits. -/
theorem decPad_digit_chars {w n : Nat} (hn : n < 10 ^ w) :
    ∀ c ∈ decPad w n, c ≠ '/' ∧ c.isWhitespace = false ∧ c ≠ '+' ∧ c ≠ '-' := by
  intro c hc
  obtain ⟨d, hd, rfl⟩ := decPad_mem w n hn c hc
  obtain ⟨h1, h2, h3, h4, _⟩ := digitChar_not_special hd
  exact ⟨h1, h2, h3, h4⟩

/-- Parsing a `w`-digit zero-padded rendering with Python `int` recovers the
value. -/
theorem pyInt_decPad {w n : Nat} (hw : 0 < w) (hn : n < 10 ^ w) :
    pyInt ⟨decPad w n⟩ = some (Int.ofNat n) := by
  have hchars := decPad_digit_chars hn
  have hdata : (⟨decPad w n⟩ : String).data = decPad w n := rfl
  rw [pyInt]
  simp only [hdata, pyStrip_eq_self (fun c hc => (hchars c hc).2.1)]
  cases w with
  | zero => omega
  | succ w =>
    have hq : n / 10 ^ w < 10 := Nat.div_lt_of_lt_mul (by rw [← pow_succ]; exact hn)
    have hhead : digitChar (n / 10 ^ w) ∈ decPad (w + 1) n := by
      rw [decPad]; exact List.mem_cons_self _ _
    obtain ⟨hs1, hs2, hs3, hs4⟩ := hchars _ hhead
    have hheadD : (decPad (w + 1) n).headD ' ' = digitChar (n / 10 ^ w) := by
      rw [decPad]; rfl
    rw [hheadD, if_neg hs3, if_neg hs4, digitsCore_decPad _ _ _ _ hn,
      if_neg (Nat.succ_ne_zero w)]
    simp

theorem splitSlash_no_slash {l : List Char} (h : ∀ c ∈ l, c ≠ '/') : splitSlash l = [l] := by
  induction l with
  | nil => rfl
  | cons c cs ih =>
    rw [splitSlash, if_neg (h c (List.mem_cons_self _ _)),
      ih (fun x hx => h x (List.mem_cons_of_mem _ hx))]

theorem splitSlash_append {a : List Char} (h : ∀ c ∈ a, c ≠ '/') (b : List Char) :
    splitSlash (a ++ '/' :: b) = a :: splitSlash b := by
  induction a with
  | nil => rw [List.nil_append, splitSlash, if_pos rfl]
  | cons c cs ih =>
    rw [List.cons_append, splitSlash, if_neg (h c (List.mem_cons_self _ _)),
      ih (fun x hx => h x (List.mem_cons_of_mem _ hx))]

/-- Splitting a well-formed `series/year/number` invoice string gives exactly
its three fields. -/
theorem splitSlash_invoiceNo {series yearCs num : List Char}
    (hs : ∀ c ∈ series, c ≠ '/') (hy : ∀ c ∈ yearCs, c ≠ '/') (hn : ∀ c ∈ num, c ≠ '/') :
    splitSlash (series ++ '/' :: (yearCs ++ '/' :: num)) = [series, yearCs, num] := by
  rw [splitSlash_append hs, splitSlash_append hy, splitSlash_no_slash hn]

/-- With enough fuel, `countDigits` bounds its argument by a power of ten. -/
theorem countDigits_bound : ∀ (fuel n : Nat), n ≤ fuel → n < 10 ^ countDigits fuel n := by
  intro fuel
  induction fuel with
  | zero =>
    intro n hn
    rw [countDigits]
    omega
  | succ fuel ih =>
    intro n hn
    rw [countDigits]
    by_cases h9 : n ≤ 9
    · rw [if_pos h9]; omega
    · rw [if_neg h9]
      have hrec : n / 10 < 10 ^ countDigits fuel (n / 10) := by
        refine ih _ ?_
        have : n / 10 < n := Nat.div_lt_self (by omega) (by omega)
        omega
      have hdm : 10 * (n / 10) + n % 10 = n := Nat.div_add_mod n 10
      rw [pow_succ]
      omega

theorem natDec_lt (n : Nat) : n < 10 ^ countDigits n n := countDigits_bound n n le_rfl

theorem natDec_digit_chars (n : Nat) :
    ∀ c ∈ natDec n, c ≠ '/' ∧ c.isWhitespace = false ∧ c ≠ '+' ∧ c ≠ '-' :=
  decPad_digit_chars (natDec_lt n)

/-! ### Shape of SHA-256 hex digests -/

theorem sha256Bytes_length (m : List Nat) : (sha256Bytes m).length = 32 := by
  simp [sha256Bytes, word4]

theorem hexOfBytes_length (bs : List Nat) : (hexOfBytes bs).length = 2 * bs.length := by
  induction bs with
  | nil => rfl
  | cons b bs ih =>
    have : hexOfBytes (b :: bs) = hexDigit (b / 16) :: hexDigit (b % 16) :: hexOfBytes bs := rfl
    rw [this]
    simp [ih]
    omega

theorem sha256Hex_data_length (s : String) : (sha256Hex s).data.length = 64 := by
  have : (sha256Hex s).data = hexOfBytes (sha256Bytes (utf8Bytes s)) := rfl
  rw [this, hexOfBytes_length, sha256Bytes_length]

theorem sha256Hex_length (s : String) : (sha256Hex s).length = 64 :=
  sha256Hex_data_length s

theorem word4_mem {b w : Nat} (h : b ∈ word4 w) : b < 256 := by
  simp only [word4, List.mem_cons, List.not_mem_nil, or_false] at h
  rcases h with rfl | rfl | rfl | rfl <;> exact Nat.lt_succ_of_le Nat.and_le_right

theorem sha256Bytes_mem {b : Nat} {m : List Nat} (h : b ∈ sha256Bytes m) : b < 256 := by
  rw [sha256Bytes] at h
  simp only [List.mem_append] at h
  rcases h with ((((((h | h) | h) | h) | h) | h) | h) | h <;> exact word4_mem h

theorem hexDigit_mem {d : Nat} (h : d < 16) : hexDigit d ∈ "0123456789abcdef".data := by
  interval_cases d <;> decide

theorem hexOfBytes_chars {bs : List Nat} (hb : ∀ b ∈ bs, b < 256) :
    ∀ c ∈ hexOfBytes bs, c ∈ "0123456789abcdef".data := by
  induction bs with
  | nil => intro c hc; simp [hexOfBytes] at hc
  | cons b bs ih =>
    intro c hc
    have hstep : hexOfBytes (b :: bs) = hexDigit (b / 16) :: hexDigit (b % 16) :: hexOfBytes bs :=
      rfl
    rw [hstep] at hc
    have hb0 : b < 256 := hb b (List.mem_cons_self _ _)
    rcases List.mem_cons.mp hc with rfl | hc
    · exact hexDigit_mem (by omega)
    · rcases List.mem_cons.mp hc with rfl | hc
      · exact hexDigit_mem (by omega)
      · exact ih (fun x hx => hb x (List.mem_cons_of_mem _ hx)) c hc

theorem sha256Hex_chars (s : String) :
    ∀ c ∈ (sha256Hex s).data, c ∈ "0123456789abcdef".data := by
  have : (sha256Hex s).data = hexOfBytes (sha256Bytes (utf8Bytes s)) := rfl
  rw [this]
  exact hexOfBytes_chars (fun b hb => sha256Bytes_mem hb)

theorem pyUpper_sha_take_length (s : String) :
    (pyUpper ⟨(sha256Hex s).data.take 45⟩).length = 45 := by
  show (List.map Char.toUpper ((sha256Hex s).data.take 45)).length = 45
  rw [List.length_map, List.length_take, sha256Hex_data_length]
  decide

theorem strMk_data (l : List Char) : (⟨l⟩ : String).data = l := rfl

theorem decPad_inj {w a b : Nat} (hw : 0 < w) (ha : a < 10 ^ w) (hb : b < 10 ^ w)
    (h : decPad w a = decPad w b) : a = b := by
  have h1 := digitsCore_decPad w 0 false a ha
  have h2 := digitsCore_decPad w 0 false b hb
  rw [h] at h1
  rw [h1] at h2
  rw [if_neg (by omega), if_neg (by omega)] at h2
  injection h2 with h2
  omega

/-- Flattening the `series/year/` prefix in front of a numeric tail. -/
theorem invoiceNoPfx_flat (st : CompanySettings) (year : Nat) (t : String) (rest : List Char) :
    invoiceNoPfx st year t ++ rest =
      (seriesFor st t).data ++ '/' :: (natDec year ++ '/' :: rest) := by
  rw [invoiceNoPfx]
  simp [List.append_assoc]

theorem invoiceNoPfx_append_ne_nil (st : CompanySettings) (year : Nat) (t : String)
    (rest : List Char) : invoiceNoPfx st year t ++ rest ≠ [] := by
  rw [invoiceNoPfx_flat]
  simp

/-- Splitting a prefixed, in-range number string yields its three fields. -/
theorem splitSlash_pfx (st : CompanySettings) (year : Nat) (t : String) {n : Nat}
    (hser : ∀ c ∈ (seriesFor st t).data, c ≠ '/') (hn : n < 10 ^ 5) :
    splitSlash (invoiceNoPfx st year t ++ decPad 5 n) =
      [(seriesFor st t).data, natDec year, decPad 5 n] := by
  rw [invoiceNoPfx_flat]
  exact splitSlash_invoiceNo hser (fun c hc => (natDec_digit_chars year c hc).1)
    (fun c hc => (decPad_digit_chars hn c hc).1)

theorem allocatedNos_eq_map_filter (pfx : List Char) (t : String) (ps : List Payment) :
    allocatedNos pfx t ps =
      (ps.filter (fun q => pyStartsWith pfx (q.invoice_no.getD "").data && q.invoice_type == t)).map
        (fun q => q.invoice_no.getD "") := by
  induction ps with
  | nil => rfl
  | cons q ps ih =>
    rw [allocatedNos, List.filterMap_cons, List.filter_cons]
    by_cases hc : (pyStartsWith pfx (q.invoice_no.getD "").data && q.invoice_type == t) = true
    · rw [if_pos hc, if_pos hc, List.map_cons]
      rw [allocatedNos] at ih
      rw [ih]
    · rw [if_neg hc, if_neg hc]
      rw [allocatedNos] at ih
      exact ih

/-- A row whose number starts with the non-empty prefix stores that number
as `some`. -/
theorem invoice_no_some_of_startsWith {st : CompanySettings} {year : Nat} {t : String}
    {q : Payment} (h : pyStartsWith (invoiceNoPfx st year t) (q.invoice_no.getD "").data = true) :
    q.invoice_no = some (q.invoice_no.getD "") := by
  cases hq : q.invoice_no with
  | some s => rfl
  | none =>
    exfalso
    rw [hq] at h
    simp only [Option.getD_none, pyStartsWith] at h
    have hne := invoiceNoPfx_append_ne_nil st year t []
    rw [List.append_nil] at hne
    have h2 : invoiceNoPfx st year t = [] := by
      have h3 := beq_iff_eq.mp h
      simpa using h3.symm
    exact hne h2

/-! ### Characterizing successful saves and signings -/

theorem payment_save_ok {db : DB} {p : Payment} {now : Nat} {db2 : DB}
    (h : payment_save db p now = .ok db2) :
    db2 = order_update_payment_status { db with payments := upsert db.payments p }
        p.orderId now ∧
    (∀ old, db.payments.find? (fun q => q.paymentID == p.paymentID) = some old →
      old.is_signed = false) := by
  rw [payment_save] at h
  cases hc : payment_clean db p with
  | error e => rw [hc] at h; simp at h
  | ok u =>
    rw [hc] at h
    cases hu : validate_unique db p with
    | error e => rw [hu] at h; simp at h
    | ok u2 =>
      rw [hu] at h
      cases hf : db.payments.find? (fun q => q.paymentID == p.paymentID) with
      | none =>
        rw [hf] at h
        simp at h
        exact ⟨h.symm, fun old ho => Option.noConfusion ho⟩
      | some old =>
        rw [hf] at h
        by_cases hs : old.is_signed
        · simp [hs] at h
        · simp [hs] at h
          refine ⟨h.symm, fun old' ho => ?_⟩
          injection ho with ho
          rw [← ho]
          simpa using hs

theorem sign_invoice_ok {db : DB} {today : SDate} {now : Nat} {p p' : Payment} {db' : DB}
    (h : sign_invoice db today now p = .ok (p', db')) :
    p' = signedFields db today now p ∧
    payment_save db (signedFields db today now p) now = .ok db' := by
  rw [sign_invoice] at h
  cases hs : payment_save db (signedFields db today now p) now with
  | error e => rw [hs] at h; simp at h
  | ok db2 =>
    rw [hs] at h
    simp at h
    exact ⟨h.1.symm, by rw [h.2]⟩

/-- The non-fiscal fields of the in-memory instance are untouched by the
field-filling stage of `sign_invoice`. -/
theorem signedFields_frame (db : DB) (today : SDate) (now : Nat) (p : Payment) :
    (signedFields db today now p).paymentID = p.paymentID ∧
    (signedFields db today now p).orderId = p.orderId ∧
    (signedFields db today now p).amount = p.amount ∧
    (signedFields db today now p).payment_method = p.payment_method ∧
    (signedFields db today now p).payment_status = p.payment_status ∧
    (signedFields db today now p).transaction_id = p.transaction_id ∧
    (signedFields db today now p).customer_tax_id = p.customer_tax_id ∧
    (signedFields db today now p).customer_name = p.customer_name ∧
    (signedFields db today now p).referenced_document = p.referenced_document ∧
    (signedFields db today now p).credit_note_reason = p.credit_note_reason ∧
    (signedFields db today now p).invoice_type = p.invoice_type ∧
    (signedFields db today now p).is_signed = true ∧
    (signedFields db today now p).signed_at = some now := by
  rw [signedFields]
  split <;> split <;> exact ⟨rfl, rfl, rfl, rfl, rfl, rfl, rfl, rfl, rfl, rfl, rfl, rfl, rfl⟩

/-- The previous-hash field stored by `sign_invoice` is exactly the value of
`get_previous_invoice_hash` for the payment's document type. -/
theorem signedFields_previous_hash (db : DB) (today : SDate) (now : Nat) (p : Payment) :
    (signedFields db today now p).previous_invoice_hash =
      some (get_previous_invoice_hash db p.invoice_type) := by
  rw [signedFields]
  split <;> split <;> rfl

theorem upsert_mem_of_ne {ps : List Payment} {p q : Payment} (hq : q ∈ ps)
    (hne : q.paymentID ≠ p.paymentID) : q ∈ upsert ps p := by
  rw [upsert]
  split
  · exact List.mem_map.mpr ⟨q, hq, by rw [if_neg (by simpa using hne)]⟩
  · exact List.mem_append_left _ hq

theorem mem_upsert_of_ne {ps : List Payment} {p q : Payment} (hq : q ∈ upsert ps p)
    (hne : q.paymentID ≠ p.paymentID) : q ∈ ps := by
  rw [upsert] at hq
  split at hq
  · obtain ⟨r, hr, hrq⟩ := List.mem_map.mp hq
    by_cases h : r.paymentID == p.paymentID
    · rw [if_pos h] at hrq
      subst hrq
      exact absurd rfl hne
    · rw [if_neg h] at hrq
      subst hrq
      exact hr
  · rcases List.mem_append.mp hq with h | h
    · exact h
    · have : q = p := by simpa using h
      subst this
      exact absurd rfl hne

theorem pairGt_irrefl (a : Nat × Nat) : pairGt a a = false := by
  simp [pairGt]

theorem pairGt_trans {x y z : Nat × Nat} (h1 : pairGt x y = true) (h2 : pairGt y z = true) :
    pairGt x z = true := by
  simp only [pairGt, Bool.or_eq_true, Bool.and_eq_true, decide_eq_true_eq, beq_iff_eq] at *
  omega

theorem pairGt_negtrans {x y z : Nat × Nat} (h1 : pairGt x y = false) (h2 : pairGt x z = true) :
    pairGt y z = true := by
  simp only [pairGt, Bool.or_eq_true, Bool.and_eq_true, decide_eq_true_eq, beq_iff_eq,
    Bool.or_eq_false_iff, Bool.and_eq_false_iff, decide_eq_false_iff_not, beq_eq_false_iff_ne,
    ne_eq] at *
  omega

/-! ### Insertion sort (the `ORDER BY` model) -/

theorem ordInsert_perm (le : α → α → Bool) (a : α) (l : List α) :
    List.Perm (ordInsert le a l) (a :: l) := by
  induction l with
  | nil => exact List.Perm.refl _
  | cons b l ih =>
    rw [ordInsert]
    split
    · exact List.Perm.refl _
    · exact (List.Perm.cons b ih).trans (List.Perm.swap a b l)

theorem isort_perm (le : α → α → Bool) (l : List α) : List.Perm (isort le l) l := by
  induction l with
  | nil => exact List.Perm.refl _
  | cons a l ih => exact (ordInsert_perm le a (isort le l)).trans (List.Perm.cons a ih)

theorem mem_ordInsert {le : α → α → Bool} {a x : α} {l : List α}
    (h : x ∈ ordInsert le a l) : x = a ∨ x ∈ l := by
  have := (ordInsert_perm le a l).mem_iff.mp h
  simpa using this

theorem ordInsert_pairwise (le : α → α → Bool)
    (htot : ∀ a b, le a b = true ∨ le b a = true)
    (htrans : ∀ a b c, le a b = true → le b c = true → le a c = true)
    (a : α) (l : List α) (hl : List.Pairwise (fun x y => le x y = true) l) :
    List.Pairwise (fun x y => le x y = true) (ordInsert le a l) := by
  induction l with
  | nil => simp [ordInsert]
  | cons b l ih =>
    rw [ordInsert]
    rw [List.pairwise_cons] at hl
    split
    · rename_i hab
      rw [List.pairwise_cons]
      refine ⟨?_, List.pairwise_cons.mpr hl⟩
      intro x hx
      rcases List.mem_cons.mp hx with rfl | hx
      · exact hab
      · exact htrans a b x hab (hl.1 x hx)
    · rename_i hab
      rw [List.pairwise_cons]
      refine ⟨?_, ih hl.2⟩
      intro x hx
      rcases mem_ordInsert hx with rfl | hx
      · rcases htot x b with h | h
        · exact absurd h hab
        · exact h
      · exact hl.1 x hx

theorem isort_pairwise (le : α → α → Bool)
    (htot : ∀ a b, le a b = true ∨ le b a = true)
    (htrans : ∀ a b c, le a b = true → le b c = true → le a c = true)
    (l : List α) : List.Pairwise (fun x y => le x y = true) (isort le l) := by
  induction l with
  | nil => simp [isort]
  | cons a l ih => exact ordInsert_pairwise le htot htrans a (isort le l) ih

theorem saftKeyLe_total (p q : Payment) : saftKeyLe p q = true ∨ saftKeyLe q p = true := by
  simp only [saftKeyLe, Bool.or_eq_true, Bool.and_eq_true, decide_eq_true_eq, beq_iff_eq,
    Bool.not_eq_true']
  rcases Nat.lt_trichotomy (dateOptKey p.invoice_date) (dateOptKey q.invoice_date) with h | h | h
  · exact Or.inl (Or.inl h)
  · by_cases hs : strLtB (q.invoice_no.getD "") (p.invoice_no.getD "") = true
    · refine Or.inr (Or.inr ⟨h.symm, ?_⟩)
      by_cases hs2 : strLtB (p.invoice_no.getD "") (q.invoice_no.getD "") = true
      · have := strLtB_trans hs hs2
        rw [strLtB_irrefl] at this
        exact Bool.noConfusion this
      · simpa using hs2
    · exact Or.inl (Or.inr ⟨h, by simpa using hs⟩)
  · exact Or.inr (Or.inl h)

theorem saftKeyLe_trans (p q r : Payment) (h1 : saftKeyLe p q = true)
    (h2 : saftKeyLe q r = true) : saftKeyLe p r = true := by
  simp only [saftKeyLe, Bool.or_eq_true, Bool.and_eq_true, decide_eq_true_eq, beq_iff_eq,
    Bool.not_eq_true'] at *
  rcases h1 with h1 | ⟨h1e, h1s⟩
  · rcases h2 with h2 | ⟨h2e, _⟩
    · exact Or.inl (Nat.lt_trans h1 h2)
    · exact Or.inl (h2e ▸ h1)
  · rcases h2 with h2 | ⟨h2e, h2s⟩
    · exact Or.inl (h1e ▸ h2)
    · refine Or.inr ⟨h1e.trans h2e, ?_⟩
      by_cases hs : strLtB (r.invoice_no.getD "") (p.invoice_no.getD "") = true
      · have := strLtB_negtrans h1s hs
        rw [h2s] at this
        exact Bool.noConfusion this
      · simpa using hs

theorem order_update_payments (db : DB) (oid now : Nat) :
    (order_update_payment_status db oid now).payments = db.payments := rfl

theorem order_update_settings (db : DB) (oid now : Nat) :
    (order_update_payment_status db oid now).settings = db.settings := rfl

theorem signedFields_invoice_no_blank (db : DB) (today : SDate) (now : Nat) (p : Payment)
    (h : p.invoice_no.getD "" = "") :
    (signedFields db today now p).invoice_no =
      some (generate_invoice_number db today.year p.invoice_type) := by
  rw [signedFields]
  split
  · split <;> rfl
  · rename_i hcond
    exact absurd h hcond

theorem upsert_append {ps : List Payment} {p8 : Payment}
    (h : ∀ q ∈ ps, q.paymentID ≠ p8.paymentID) : upsert ps p8 = ps ++ [p8] := by
  have hany : ps.any (fun q => q.paymentID == p8.paymentID) = false := by
    cases hcase : ps.any (fun q => q.paymentID == p8.paymentID) with
    | false => rfl
    | true =>
      obtain ⟨q, hq, hbeq⟩ := List.any_eq_true.mp hcase
      exact absurd (beq_iff_eq.mp hbeq) (h q hq)
  rw [upsert, if_neg (by rw [hany]; exact Bool.false_ne_true)]

theorem allocatedNos_append (pfx : List Char) (t : String) (ps : List Payment) (p8 : Payment)
    (hcond : (pyStartsWith pfx (p8.invoice_no.getD "").data && p8.invoice_type == t) = true) :
    allocatedNos pfx t (ps ++ [p8]) = allocatedNos pfx t ps ++ [p8.invoice_no.getD ""] := by
  rw [allocatedNos, List.filterMap_append]
  congr 1
  rw [List.filterMap_cons, if_pos hcond]
  rfl

/-! ### The allocator's step behaviour -/

/-- On a state whose stored numbers under the `series/year/` prefix (for the
requested type) are all 5-digit padded values in `[1, 99999]` with highest
value `n`, the allocator returns `n + 1`. -/
theorem generate_step (db : DB) (year : Nat) (t : String) (n : Nat)
    (hser : ∀ c ∈ (seriesFor db.settings t).data, c ≠ '/')
    (hall : ∀ q ∈ db.payments.filter (fun p =>
        pyStartsWith (invoiceNoPfx db.settings year t) (p.invoice_no.getD "").data &&
        p.invoice_type == t),
      ∃ k, 1 ≤ k ∧ k ≤ 99999 ∧
        q.invoice_no = some ⟨invoiceNoPfx db.settings year t ++ decPad 5 k⟩)
    (hn1 : 1 ≤ n) (hn2 : n ≤ 99999)
    (hmem : ∃ q ∈ db.payments.filter (fun p =>
        pyStartsWith (invoiceNoPfx db.settings year t) (p.invoice_no.getD "").data &&
        p.invoice_type == t),
      q.invoice_no = some ⟨invoiceNoPfx db.settings year t ++ decPad 5 n⟩)
    (hmax : ∀ q ∈ db.payments.filter (fun p =>
        pyStartsWith (invoiceNoPfx db.settings year t) (p.invoice_no.getD "").data &&
        p.invoice_type == t),
      ∀ k, 1 ≤ k → k ≤ 99999 →
        q.invoice_no = some ⟨invoiceNoPfx db.settings year t ++ decPad 5 k⟩ → k ≤ n) :
    generate_invoice_number db year t =
      ⟨invoiceNoPfx db.settings year t ++ pyFmtNat 5 (n + 1)⟩ := by
  have h5 : (10 : Nat) ^ 5 = 100000 := by norm_num
  have hnlt : n < 10 ^ 5 := by omega
  obtain ⟨qn, hqn_mem, hqn_no⟩ := hmem
  obtain ⟨r, hr⟩ := @pickMax_isSome _
    (fun q m => strLtB (m.invoice_no.getD "") (q.invoice_no.getD ""))
    (db.payments.filter (fun p =>
      pyStartsWith (invoiceNoPfx db.settings year t) (p.invoice_no.getD "").data &&
      p.invoice_type == t))
    (by intro hnil; rw [hnil] at hqn_mem; cases hqn_mem)
  have hrmem := pickMax_mem hr
  have hbest := @pickMax_best _
    (fun (q m : Payment) => strLtB (m.invoice_no.getD "") (q.invoice_no.getD "")) _ _
    (fun x => by exact strLtB_irrefl _)
    (fun x y z h1 h2 => by exact strLtB_trans h2 h1)
    (fun x y z h1 h2 => by exact strLtB_negtrans h1 h2)
    hr
  obtain ⟨kr, hkr1, hkr2, hkr_no⟩ := hall r hrmem
  have hkey_r : r.invoice_no.getD "" = ⟨invoiceNoPfx db.settings year t ++ decPad 5 kr⟩ := by
    rw [hkr_no]
    rfl
  have hkey_qn : qn.invoice_no.getD "" = ⟨invoiceNoPfx db.settings year t ++ decPad 5 n⟩ := by
    rw [hqn_no]
    rfl
  have hkrn : kr ≤ n := hmax r hrmem kr hkr1 hkr2 hkr_no
  have hkr_eq : kr = n := by
    rcases Nat.lt_or_ge kr n with hlt | hge
    · exfalso
      have hb : strLtB (r.invoice_no.getD "") (qn.invoice_no.getD "") = false :=
        hbest qn hqn_mem
      rw [hkey_r, hkey_qn] at hb
      have hlt2 := @strLtB_pad (invoiceNoPfx db.settings year t) _ _ _ hlt hnlt
      rw [hlt2] at hb
      exact Bool.noConfusion hb
    · omega
  subst hkr_eq
  rw [generate_invoice_number]
  simp only [hr]
  rw [hkey_r]
  rw [if_pos (strMk_ne_empty (invoiceNoPfx_append_ne_nil _ _ _ _))]
  rw [strMk_data, splitSlash_pfx _ _ _ hser hnlt]
  rw [if_pos (by rfl)]
  have hgd : ([(seriesFor db.settings t).data, natDec year, decPad 5 kr]).getD 2 [] =
      decPad 5 kr := rfl
  rw [hgd, pyInt_decPad (by norm_num) hnlt]
  rfl

/-- With no stored number under the prefix for the type, the allocator
returns 1, formatted `series/year/00001`. -/
theorem generate_empty (db : DB) (year : Nat) (t : String)
    (hempty : db.payments.filter (fun p =>
        pyStartsWith (invoiceNoPfx db.settings year t) (p.invoice_no.getD "").data &&
        p.invoice_type == t) = []) :
    generate_invoice_number db year t = ⟨invoiceNoPfx db.settings year t ++ "00001".data⟩ := by
  have hfmt : pyFmtInt 5 1 = "00001".data := by decide
  rw [generate_invoice_number]
  simp only [hempty, pickMax_nil]
  rw [hfmt]

/-- Running `sign_invoice` over a list of fresh blank drafts of one document
type extends the set of allocated prefixed numbers from `{1..k}` to
`{1..k + N}` — the inductive heart of the gap-free numbering property. -/
theorem signRun_perm (today : SDate) (now : Nat) (t : String) (st : CompanySettings)
    (hser : ∀ c ∈ (seriesFor st t).data, c ≠ '/') :
    ∀ (drafts : List Payment) (db : DB) (k : Nat) (db' : DB),
      db.settings = st →
      k + drafts.length ≤ 99999 →
      (∀ p ∈ drafts, p.invoice_type = t ∧ p.invoice_no.getD "" = "") →
      List.Pairwise (fun a b => a.paymentID ≠ b.paymentID) drafts →
      (∀ p ∈ drafts, ∀ q ∈ db.payments, q.paymentID ≠ p.paymentID) →
      List.Perm (allocatedNos (invoiceNoPfx st today.year t) t db.payments)
        ((List.range k).map
          (fun i => (⟨invoiceNoPfx st today.year t ++ decPad 5 (i + 1)⟩ : String))) →
      signRun today now db drafts = .ok db' →
      List.Perm (allocatedNos (invoiceNoPfx st today.year t) t db'.payments)
        ((List.range (k + drafts.length)).map
          (fun i => (⟨invoiceNoPfx st today.year t ++ decPad 5 (i + 1)⟩ : String))) := by
  intro drafts
  induction drafts with
  | nil =>
    intro db k db' hst hlen hdr hpw hfresh hperm hrun
    rw [signRun] at hrun
    injection hrun with hrun
    subst hrun
    simpa using hperm
  | cons p ps ih =>
    intro db k db' hst hlen hdr hpw hfresh hperm hrun
    rw [signRun] at hrun
    cases hsig : sign_invoice db today now p with
    | error e =>
      rw [hsig] at hrun
      exact absurd hrun (by simp)
    | ok r =>
      rw [hsig] at hrun
      obtain ⟨pr, db2⟩ := r
      have hrun2 : signRun today now db2 ps = .ok db' := hrun
      obtain ⟨hp8, hsave⟩ := sign_invoice_ok hsig
      obtain ⟨hdb2, -⟩ := payment_save_ok hsave
      obtain ⟨hpt, hpno⟩ := hdr p (List.mem_cons_self _ _)
      obtain ⟨hf_pid, -, -, -, -, -, -, -, -, -, hf_type, -, -⟩ :=
        signedFields_frame db today now p
      have hgen : (signedFields db today now p).invoice_no =
          some (generate_invoice_number db today.year t) := by
        rw [signedFields_invoice_no_blank db today now p hpno, hpt]
      -- the allocator returns k + 1 on the current state
      have hk1lt : k + 1 < 10 ^ 5 := by
        have : (10 : Nat) ^ 5 = 100000 := by norm_num
        simp only [List.length_cons] at hlen
        omega
      have hgen_val : generate_invoice_number db today.year t =
          ⟨invoiceNoPfx st today.year t ++ decPad 5 (k + 1)⟩ := by
        rcases Nat.eq_zero_or_pos k with hk0 | hkpos
        · subst hk0
          have hnil : allocatedNos (invoiceNoPfx st today.year t) t db.payments = [] :=
            List.Perm.eq_nil (by simpa using hperm)
          rw [allocatedNos_eq_map_filter] at hnil
          have hfilter := List.map_eq_nil.mp hnil
          have hfilter' : db.payments.filter (fun p =>
              pyStartsWith (invoiceNoPfx db.settings today.year t)
                (p.invoice_no.getD "").data && p.invoice_type == t) = [] := by
            rw [hst]
            exact hfilter
          have h0 := generate_empty db today.year t hfilter'
          rw [hst] at h0
          rw [h0]
          have : "00001".data = decPad 5 (0 + 1) := by decide
          rw [this]
        · -- build the step hypotheses from the permutation invariant
          have hmemmap : ∀ q ∈ db.payments.filter (fun p =>
              pyStartsWith (invoiceNoPfx st today.year t) (p.invoice_no.getD "").data &&
              p.invoice_type == t),
              ∃ i, i < k ∧ q.invoice_no.getD "" =
                (⟨invoiceNoPfx st today.year t ++ decPad 5 (i + 1)⟩ : String) := by
            intro q hq
            have h1 : q.invoice_no.getD "" ∈
                allocatedNos (invoiceNoPfx st today.year t) t db.payments := by
              rw [allocatedNos_eq_map_filter]
              exact List.mem_map.mpr ⟨q, hq, rfl⟩
            have h2 := hperm.mem_iff.mp h1
            obtain ⟨i, hi, hieq⟩ := List.mem_map.mp h2
            exact ⟨i, List.mem_range.mp hi, hieq.symm⟩
          have hsome : ∀ q ∈ db.payments.filter (fun p =>
              pyStartsWith (invoiceNoPfx st today.year t) (p.invoice_no.getD "").data &&
              p.invoice_type == t),
              q.invoice_no = some (q.invoice_no.getD "") := by
            intro q hq
            have := (Bool.and_eq_true _ _ ▸ (List.mem_filter.mp hq).2).1
            exact invoice_no_some_of_startsWith this
          have hall : ∀ q ∈ db.payments.filter (fun p =>
              pyStartsWith (invoiceNoPfx st today.year t) (p.invoice_no.getD "").data &&
              p.invoice_type == t),
              ∃ k', 1 ≤ k' ∧ k' ≤ 99999 ∧
                q.invoice_no = some ⟨invoiceNoPfx st today.year t ++ decPad 5 k'⟩ := by
            intro q hq
            obtain ⟨i, hik, hieq⟩ := hmemmap q hq
            refine ⟨i + 1, by omega, by omega, ?_⟩
            rw [hsome q hq, hieq]
          have hmem : ∃ q ∈ db.payments.filter (fun p =>
              pyStartsWith (invoiceNoPfx st today.year t) (p.invoice_no.getD "").data &&
              p.invoice_type == t),
              q.invoice_no = some ⟨invoiceNoPfx st today.year t ++ decPad 5 k⟩ := by
            have hk_in : (⟨invoiceNoPfx st today.year t ++ decPad 5 k⟩ : String) ∈
                (List.range k).map
                  (fun i => (⟨invoiceNoPfx st today.year t ++ decPad 5 (i + 1)⟩ : String)) := by
              refine List.mem_map.mpr ⟨k - 1, List.mem_range.mpr (by omega), ?_⟩
              rw [Nat.sub_add_cancel hkpos]
            have h2 := hperm.symm.mem_iff.mp hk_in
            rw [allocatedNos_eq_map_filter] at h2
            obtain ⟨q, hq, hqe⟩ := List.mem_map.mp h2
            refine ⟨q, hq, ?_⟩
            rw [hsome q hq, hqe]
          have hmax : ∀ q ∈ db.payments.filter (fun p =>
              pyStartsWith (invoiceNoPfx st today.year t) (p.invoice_no.getD "").data &&
              p.invoice_type == t),
              ∀ k', 1 ≤ k' → k' ≤ 99999 →
                q.invoice_no = some ⟨invoiceNoPfx st today.year t ++ decPad 5 k'⟩ →
                k' ≤ k := by
            intro q hq k' hk'1 hk'2 hq_no
            obtain ⟨i, hik, hieq⟩ := hmemmap q hq
            have hqd : q.invoice_no.getD "" =
                (⟨invoiceNoPfx st today.year t ++ decPad 5 k'⟩ : String) := by
              rw [hq_no]
              rfl
            rw [hqd] at hieq
            have hlists := strMk_inj.mp hieq
            have hpads := List.append_cancel_left hlists
            have h5 : (10 : Nat) ^ 5 = 100000 := by norm_num
            have := decPad_inj (by norm_num) (by omega) (by omega) hpads
            omega
          have hser' : ∀ c ∈ (seriesFor db.settings t).data, c ≠ '/' := by
            rw [hst]
            exact hser
          have hall' := hall
          have hmem' := hmem
          have hmax' := hmax
          rw [← hst] at hall' hmem' hmax'
          have hstep := generate_step db today.year t k hser' hall' hkpos (by omega) hmem' hmax'
          rw [hst] at hstep
          rw [hstep, pyFmtNat, if_pos hk1lt]
      -- the signed row
      have hp8no : (signedFields db today now p).invoice_no =
          some ⟨invoiceNoPfx st today.year t ++ decPad 5 (k + 1)⟩ := by
        rw [hgen, hgen_val]
      have hp8t : (signedFields db today now p).invoice_type = t := by
        rw [hf_type, hpt]
      have hcond : (pyStartsWith (invoiceNoPfx st today.year t)
          (((signedFields db today now p).invoice_no.getD "")).data &&
          (signedFields db today now p).invoice_type == t) = true := by
        rw [hp8no, hp8t]
        simp only [Option.getD_some, strMk_data, pyStartsWith_append, beq_self_eq_true,
          Bool.and_self]
      -- upsert appends (fresh primary key)
      have hfreshp : ∀ q ∈ db.payments, q.paymentID ≠ (signedFields db today now p).paymentID := by
        intro q hq
        rw [hf_pid]
        exact hfresh p (List.mem_cons_self _ _) q hq
      have hup : upsert db.payments (signedFields db today now p) =
          db.payments ++ [signedFields db today now p] := upsert_append hfreshp
      have hdb2pay : db2.payments = db.payments ++ [signedFields db today now p] := by
        rw [hdb2, order_update_payments, hup]
      have hdb2set : db2.settings = st := by
        rw [hdb2, order_update_settings]
        exact hst
      -- extended permutation
      have hperm2 : List.Perm (allocatedNos (invoiceNoPfx st today.year t) t db2.payments)
          ((List.range (k + 1)).map
            (fun i => (⟨invoiceNoPfx st today.year t ++ decPad 5 (i + 1)⟩ : String))) := by
        rw [hdb2pay, allocatedNos_append _ _ _ _ hcond, List.range_succ, List.map_append]
        have hval : (signedFields db today now p).invoice_no.getD "" =
            (⟨invoiceNoPfx st today.year t ++ decPad 5 (k + 1)⟩ : String) := by
          rw [hp8no]
          rfl
        rw [hval]
        exact hperm.append_right _
      -- freshness for the remaining drafts
      have hfresh2 : ∀ p' ∈ ps, ∀ q ∈ db2.payments, q.paymentID ≠ p'.paymentID := by
        intro p' hp' q hq
        rw [hdb2pay] at hq
        rcases List.mem_append.mp hq with hq | hq
        · exact hfresh p' (List.mem_cons_of_mem _ hp') q hq
        · have hqp8 : q = signedFields db today now p := by simpa using hq
          subst hqp8
          rw [hf_pid]
          exact (List.pairwise_cons.mp hpw).1 p' hp'
      have hres := ih db2 (k + 1) db' hdb2set
        (by simp only [List.length_cons] at hlen; omega)
        (fun q hq => hdr q (List.mem_cons_of_mem _ hq))
        (List.pairwise_cons.mp hpw).2 hfresh2 hperm2 hrun2
      have harith : k + 1 + ps.length = k + (p :: ps).length := by
        rw [List.length_cons]
        omega
      rw [harith] at hres
      exact hres

/-! ## Claim theorems -/

/-- C2: the document hash is deterministic and equals the SHA-256 of the
UTF-8 concatenation, in order, of the ISO-formatted invoice date, the invoice
number string, the two-decimal grand total, and the previous hash string; the
digest is 64 hex characters.  Confirmed. -/
theorem c2_hash_deterministic (db1 db2 : DB) (p q : Payment)
    (hdate : invoiceDateStr p = invoiceDateStr q)
    (hno : p.invoice_no.getD "" = q.invoice_no.getD "")
    (htot : fmt2 (orderOf db1 p.orderId).grandTotal = fmt2 (orderOf db2 q.orderId).grandTotal)
    (hprev : p.previous_invoice_hash.getD "" = q.previous_invoice_hash.getD "") :
    calculate_invoice_hash db1 p = calculate_invoice_hash db2 q ∧
    calculate_invoice_hash db1 p =
      sha256Hex (invoiceDateStr p ++ p.invoice_no.getD "" ++
        fmt2 (orderOf db1 p.orderId).grandTotal ++ p.previous_invoice_hash.getD "") ∧
    (calculate_invoice_hash db1 p).length = 64 ∧
    (∀ c ∈ (calculate_invoice_hash db1 p).data, c ∈ "0123456789abcdef".data) := by
  refine ⟨?_, rfl, sha256Hex_length _, sha256Hex_chars _⟩
  rw [calculate_invoice_hash, calculate_invoice_hash, hdate, hno, htot, hprev]

/-- Concrete instantiation of the C2 theorem: two distinct payments on two
distinct databases with identical hash inputs. -/
theorem c2_hash_deterministic_witness :
    calculate_invoice_hash
        ⟨⟨"123456789", "FT A", "NC A", "TV A", "0"⟩, [⟨1, 10000, 1500, 11500, "PENDING", 0⟩],
         []⟩
        { paymentID := 1, orderId := 1, amount := 11500, payment_method := "CASH",
          payment_status := "COMPLETED", transaction_id := none,
          invoice_no := some "FT A/2025/00001", invoice_date := some ⟨2025, 1, 2⟩,
          invoice_type := "FT", invoice_hash := none, previous_invoice_hash := none,
          hash_algorithm := "SHA256", software_certificate_number := "0", iud := none,
          is_signed := false, signed_at := none, customer_tax_id := none,
          customer_name := none, referenced_document := none, credit_note_reason := none } =
      calculate_invoice_hash
        ⟨⟨"999999999", "FT B", "NC B", "TV B", "7"⟩, [⟨5, 9999, 1501, 11500, "PAID", 3⟩], []⟩
        { paymentID := 2, orderId := 5, amount := 11500, payment_method := "ONLINE",
          payment_status := "PENDING", transaction_id := some "t",
          invoice_no := some "FT A/2025/00001", invoice_date := some ⟨2025, 1, 2⟩,
          invoice_type := "FR", invoice_hash := some "x", previous_invoice_hash := none,
          hash_algorithm := "SHA256", software_certificate_number := "9", iud := none,
          is_signed := true, signed_at := some 9, customer_tax_id := none,
          customer_name := none, referenced_document := none, credit_note_reason := none } :=
  (c2_hash_deterministic _ _ _ _ (by decide) (by decide) (by decide) (by decide)).1

/-- C7: for every payment with an invoice number, invoice date, document type
and company tax id, `generate_iud` is deterministic in those inputs (the
current time is irrelevant once `invoice_date` is set) and returns exactly 45
characters.  Confirmed. -/
theorem c7_iud_shape (st1 st2 : CompanySettings) (now1 now2 : SDate) (p q : Payment) (d : SDate)
    (htax : st1.tax_registration_number = st2.tax_registration_number)
    (hno : p.invoice_no = q.invoice_no)
    (hdp : p.invoice_date = some d) (hdq : q.invoice_date = some d)
    (htype : p.invoice_type = q.invoice_type) :
    generate_iud st1 now1 p = generate_iud st2 now2 q ∧
    (generate_iud st1 now1 p).length = 45 := by
  constructor
  · rw [generate_iud, generate_iud, hdp, hdq, htax, hno, htype]
  · exact pyUpper_sha_take_length _

/-- Concrete instantiation of the C7 theorem. -/
theorem c7_iud_shape_witness :
    generate_iud ⟨"123456789", "FT A", "NC A", "TV A", "0"⟩ ⟨2025, 3, 4⟩
        { paymentID := 1, orderId := 1, amount := 11500, payment_method := "CASH",
          payment_status := "COMPLETED", transaction_id := none,
          invoice_no := some "FT A/2025/00001", invoice_date := some ⟨2025, 1, 2⟩,
          invoice_type := "FT", invoice_hash := none, previous_invoice_hash := none,
          hash_algorithm := "SHA256", software_certificate_number := "0", iud := none,
          is_signed := false, signed_at := none, customer_tax_id := none,
          customer_name := none, referenced_document := none, credit_note_reason := none } =
      generate_iud ⟨"123456789", "FT Z", "NC Z", "TV Z", "3"⟩ ⟨2030, 12, 31⟩
        { paymentID := 7, orderId := 3, amount := 1, payment_method := "ONLINE",
          payment_status := "PENDING", transaction_id := none,
          invoice_no := some "FT A/2025/00001", invoice_date := some ⟨2025, 1, 2⟩,
          invoice_type := "FT", invoice_hash := none, previous_invoice_hash := some "h",
          hash_algorithm := "SHA256", software_certificate_number := "3", iud := none,
          is_signed := true, signed_at := some 4, customer_tax_id := none,
          customer_name := none, referenced_document := none, credit_note_reason := none } :=
  (c7_iud_shape _ _ _ _ _ _ ⟨2025, 1, 2⟩ (by decide) (by decide) (by decide) (by decide)
    (by decide)).1

/-- C10: when the last stored invoice number matching the requested series
and year does not split on `/` into exactly three parts, or its third part is
not parseable as an integer, `generate_invoice_number` does not raise and
returns number 1, formatted `series/year/00001`.  Confirmed (totality is
inherent: the embedding is a total function). -/
theorem c10_malformed_predecessor (db : DB) (year : Nat) (t : String) (lp : Payment)
    (hsel : pickMax (fun q m => strLtB (m.invoice_no.getD "") (q.invoice_no.getD ""))
        (db.payments.filter (fun p =>
          pyStartsWith (invoiceNoPfx db.settings year t) (p.invoice_no.getD "").data &&
          p.invoice_type == t)) = some lp)
    (hmal : (splitSlash (lp.invoice_no.getD "").data).length ≠ 3 ∨
        pyInt ⟨(splitSlash (lp.invoice_no.getD "").data).getD 2 []⟩ = none) :
    generate_invoice_number db year t = ⟨invoiceNoPfx db.settings year t ++ "00001".data⟩ := by
  have hfmt : pyFmtInt 5 1 = "00001".data := by decide
  rw [generate_invoice_number]
  simp only [hsel]
  by_cases hemp : (lp.invoice_no.getD "") = ""
  · rw [if_neg (by simpa using hemp), hfmt]
  · rw [if_pos hemp]
    by_cases hlen : (splitSlash (lp.invoice_no.getD "").data).length = 3
    · rcases hmal with hmal | hmal
      · exact absurd hlen hmal
      · rw [if_pos hlen, hmal, hfmt]
    · rw [if_neg hlen, hfmt]

/-- Concrete instantiation of the C10 theorem: a stored invoice number with
an unparseable numeric part. -/
theorem c10_malformed_predecessor_witness :
    generate_invoice_number
        ⟨stA, [ordA], [{ draftA with invoice_no := some "FT A/2025/0001x" }]⟩ 2025 "FT" =
      ⟨invoiceNoPfx stA 2025 "FT" ++ "00001".data⟩ :=
  c10_malformed_predecessor _ 2025 "FT" { draftA with invoice_no := some "FT A/2025/0001x" }
    (by decide) (Or.inr (by decide))

/-- C5: credit-note validation — `Payment.clean` rejects an NC without a
referenced document, an NC with a referenced document but no reason code, an
NC whose referenced document is itself an NC, and a non-NC carrying a
referenced document; `IssueCreditNoteSerializer.validate_original_invoice_id`
rejects an unsigned original and an NC original.  Each rule carries its own
error.  Confirmed. -/
theorem c5_credit_note_validation :
    (∀ (db : DB) (p : Payment), p.invoice_type = "NC" → p.referenced_document = none →
      payment_clean db p =
        .error (.validation "referenced_document" "Credit Notes must reference an original document")) ∧
    (∀ (db : DB) (p : Payment), p.invoice_type = "NC" → p.referenced_document.isSome →
      p.credit_note_reason.getD "" = "" →
      payment_clean db p =
        .error (.validation "credit_note_reason" "Credit Notes must have a reason code")) ∧
    (∀ (db : DB) (p : Payment) (r : Payment), p.invoice_type = "NC" →
      p.credit_note_reason.getD "" ≠ "" → refDoc db p = some r → r.invoice_type = "NC" →
      payment_clean db p =
        .error (.validation "referenced_document" "Cannot reference another Credit Note")) ∧
    (∀ (db : DB) (pid : Nat) (inv : Payment),
      db.payments.find? (fun q => q.paymentID == pid) = some inv → inv.is_signed = false →
      validate_original_invoice_id db pid =
        .error (.validation "original_invoice_id" "Can only issue credit notes for signed invoices")) ∧
    (∀ (db : DB) (pid : Nat) (inv : Payment),
      db.payments.find? (fun q => q.paymentID == pid) = some inv → inv.is_signed = true →
      inv.invoice_type = "NC" →
      validate_original_invoice_id db pid =
        .error (.validation "original_invoice_id" "Cannot issue a credit note against another credit note")) ∧
    (∀ (db : DB) (p : Payment), p.invoice_type ≠ "NC" → p.referenced_document.isSome →
      payment_clean db p =
        .error (.validation "referenced_document" "Only Credit Notes can reference documents")) := by
  refine ⟨?_, ?_, ?_, ?_, ?_, ?_⟩
  · intro db p htype href
    rw [payment_clean, if_pos htype, if_pos (by rw [href]; rfl)]
  · intro db p htype href hreason
    have hnn : ¬ p.referenced_document.isNone = true := by
      cases hro : p.referenced_document with
      | none => rw [hro] at href; simp at href
      | some r => simp
    rw [payment_clean, if_pos htype, if_neg hnn, if_pos hreason]
  · intro db p r htype hreason href hrtype
    have hrefsome : ¬ p.referenced_document.isNone = true := by
      rcases hp : p.referenced_document with _ | rid
      · rw [refDoc, hp] at href; exact absurd href (by simp)
      · simp
    rw [payment_clean, if_pos htype, if_neg hrefsome, if_neg hreason,
      if_pos (by rw [href]; simpa using hrtype)]
  · intro db pid inv hfind hsig
    rw [validate_original_invoice_id, hfind]
    simp only [hsig]
    rfl
  · intro db pid inv hfind hsig htype
    rw [validate_original_invoice_id, hfind]
    simp only [hsig, Bool.not_true, Bool.false_eq_true, if_false, if_pos htype]
  · intro db p htype href
    rw [payment_clean, if_neg htype, if_pos href]

/-- Concrete instantiation of the six C5 rules. -/
theorem c5_credit_note_validation_witness :
    payment_clean ⟨stA, [ordA], []⟩
        { draftA with invoice_type := "NC" } =
      .error (.validation "referenced_document" "Credit Notes must reference an original document") ∧
    payment_clean ⟨stA, [ordA], [draftA]⟩
        { draftA with paymentID := 2, invoice_type := "NC", referenced_document := some 1 } =
      .error (.validation "credit_note_reason" "Credit Notes must have a reason code") ∧
    payment_clean ⟨stA, [ordA], [{ draftA with invoice_type := "NC" }]⟩
        { draftA with paymentID := 2, invoice_type := "NC", referenced_document := some 1,
                      credit_note_reason := some "M01" } =
      .error (.validation "referenced_document" "Cannot reference another Credit Note") ∧
    validate_original_invoice_id ⟨stA, [ordA], [draftA]⟩ 1 =
      .error (.validation "original_invoice_id" "Can only issue credit notes for signed invoices") ∧
    validate_original_invoice_id
        ⟨stA, [ordA], [{ draftA with invoice_type := "NC", is_signed := true }]⟩ 1 =
      .error (.validation "original_invoice_id" "Cannot issue a credit note against another credit note") ∧
    payment_clean ⟨stA, [ordA], [draftA]⟩
        { draftA with paymentID := 2, referenced_document := some 1 } =
      .error (.validation "referenced_document" "Only Credit Notes can reference documents") := by
  refine ⟨?_, ?_, ?_, ?_, ?_, ?_⟩
  · exact c5_credit_note_validation.1 _ _ (by decide) (by decide)
  · exact c5_credit_note_validation.2.1 _ _ (by decide) (by decide) (by decide)
  · exact c5_credit_note_validation.2.2.1 _ _
      { draftA with invoice_type := "NC" } (by decide) (by decide) (by decide) (by decide)
  · exact c5_credit_note_validation.2.2.2.1 _ _ draftA (by decide) (by decide)
  · exact c5_credit_note_validation.2.2.2.2.1 _ _
      { draftA with invoice_type := "NC", is_signed := true } (by decide) (by decide) (by decide)
  · exact c5_credit_note_validation.2.2.2.2.2 _ _ (by decide) (by decide)

/-- C6 (amended): `validate_hash_chain` is a self-consistency check only — it
returns true exactly when the stored hash equals the hash recomputed from the
document's own stored fields; it does not inspect the chain predecessor. -/
theorem c6_verify_self_consistency (db : DB) (p : Payment) :
    validate_hash_chain db p = true ↔ p.invoice_hash = some (calculate_invoice_hash db p) := by
  cases hih : p.invoice_hash with
  | none =>
    rw [validate_hash_chain, hih]
    simp
  | some h =>
    rw [validate_hash_chain, hih]
    constructor
    · intro hb
      exact congrArg some (eq_of_beq hb).symm
    · intro hs
      injection hs with hs
      rw [hs]
      exact beq_self_eq_true _

/-- C6 counterexample: a payment whose stored `previous_invoice_hash` is
forged (it differs from its chain predecessor's stored hash) while its own
stored hash is correctly recomputed from its stored fields —
`validate_hash_chain` nevertheless returns `true`, so the chain-of-custody
conjunct of the claim is not checked by the code. -/
theorem c6_counterexample :
    validate_hash_chain dbC6 paymentP6 = true ∧
    claimPredecessor dbC6 paymentP6 = some paymentQ6 ∧
    paymentP6.previous_invoice_hash ≠ some (paymentQ6.invoice_hash.getD "") :=
  ⟨by decide, by decide, by decide⟩

/-- C4 (amended): saving a payment whose stored row is signed always fails —
with the immutable-document error whenever model validation and uniqueness
validation pass, and with that validation's own error otherwise; deleting a
signed payment always fails with the immutable-document error; the sign
endpoint rejects an already-signed payment with the already-signed error; and
`sign_invoice` on a payment whose stored row is signed always fails.  In
every failure the `Except.error` result carries no successor state: the
transaction is rolled back and every stored field is unchanged. -/
theorem c4_immutability :
    (∀ (db : DB) (p : Payment) (now : Nat) (old : Payment),
      db.payments.find? (fun q => q.paymentID == p.paymentID) = some old →
      old.is_signed = true →
      (∃ e, payment_save db p now = .error e) ∧
      (∀ u v, payment_clean db p = .ok u → validate_unique db p = .ok v →
        payment_save db p now = .error (.immutableSigned "Cannot modify a signed payment/invoice. Signed fiscal documents are immutable. To correct, issue a Credit Note (NC)."))) ∧
    (∀ (db : DB) (p : Payment), p.is_signed = true →
      payment_delete db p = .error (.immutableSigned "Cannot delete a signed payment/invoice. Signed fiscal documents are immutable. To cancel, issue a Credit Note (NC).")) ∧
    (∀ (db : DB) (today : SDate) (now : Nat) (pid : Nat) (p : Payment),
      db.payments.find? (fun q => q.paymentID == pid) = some p → p.is_signed = true →
      sign_invoice_view_post db today now pid =
        .error (.alreadySigned "Invoice is already signed and cannot be modified.")) ∧
    (∀ (db : DB) (today : SDate) (now : Nat) (p : Payment) (old : Payment),
      db.payments.find? (fun q => q.paymentID == p.paymentID) = some old →
      old.is_signed = true →
      ∃ e, sign_invoice db today now p = .error e) := by
  refine ⟨?_, ?_, ?_, ?_⟩
  · intro db p now old hfind hsig
    constructor
    · cases hc : payment_clean db p with
      | error e => exact ⟨e, by rw [payment_save, hc]⟩
      | ok u =>
        cases hu : validate_unique db p with
        | error e => exact ⟨e, by rw [payment_save, hc, hu]⟩
        | ok u2 =>
          exact ⟨.immutableSigned "Cannot modify a signed payment/invoice. Signed fiscal documents are immutable. To correct, issue a Credit Note (NC).",
            by rw [payment_save, hc, hu, hfind]; simp [hsig]⟩
    · intro u v hclean hunique
      rw [payment_save, hclean, hunique, hfind]
      simp [hsig]
  · intro db p hsig
    rw [payment_delete, if_pos hsig]
  · intro db today now pid p hfind hsig
    rw [sign_invoice_view_post, hfind]
    simp [hsig]
  · intro db today now p old hfind hsig
    have hpid : (signedFields db today now p).paymentID = p.paymentID :=
      (signedFields_frame db today now p).1
    cases hres : sign_invoice db today now p with
    | error e => exact ⟨e, rfl⟩
    | ok pr =>
      exfalso
      obtain ⟨p', db'⟩ := pr
      obtain ⟨_, hsave⟩ := sign_invoice_ok hres
      obtain ⟨_, hold⟩ := payment_save_ok hsave
      have hfalse := hold old (by simp only [hpid]; exact hfind)
      rw [hsig] at hfalse
      exact Bool.noConfusion hfalse

/-- C4 counterexample to the error-kind part of the claim: updating a signed
payment with fields that violate model validation fails with the validation
error raised by `full_clean`, not with the immutable-document error — the
immutability guard runs only after `full_clean` has passed. -/
theorem c4_counterexample :
    payment_save dbSigned badUpdate 5 =
      .error (.validation "referenced_document" "Only Credit Notes can reference documents") ∧
    ∀ m, payment_save dbSigned badUpdate 5 ≠ .error (.immutableSigned m) := by
  have h1 : payment_save dbSigned badUpdate 5 =
      .error (.validation "referenced_document" "Only Credit Notes can reference documents") := by
    rfl
  refine ⟨h1, fun m hm => ?_⟩
  rw [h1] at hm
  simp at hm

/-- Concrete instantiation of the four C4 conclusions on a signed fixture. -/
theorem c4_immutability_witness :
    (∃ e, payment_save dbSigned signedA 5 = .error e) ∧
    payment_delete dbSigned signedA =
      .error (.immutableSigned "Cannot delete a signed payment/invoice. Signed fiscal documents are immutable. To cancel, issue a Credit Note (NC).") ∧
    sign_invoice_view_post dbSigned ⟨2025, 2, 3⟩ 300 1 =
      .error (.alreadySigned "Invoice is already signed and cannot be modified.") ∧
    (∃ e, sign_invoice dbSigned ⟨2025, 2, 3⟩ 300 signedA = .error e) :=
  ⟨(c4_immutability.1 dbSigned signedA 5 signedA (by decide) (by decide)).1,
   c4_immutability.2.1 dbSigned signedA (by decide),
   c4_immutability.2.2.1 dbSigned ⟨2025, 2, 3⟩ 300 1 signedA (by decide) (by decide),
   c4_immutability.2.2.2 dbSigned ⟨2025, 2, 3⟩ 300 signedA signedA (by decide) (by decide)⟩

/-- C3 (amended): for every document signed by `sign_invoice`, the stored
`previousHash` is the hash of the signed, hash-bearing document of the same
document type that is greatest by `(invoice_date, paymentID)` at signing time
— which is the ordering `get_previous_invoice_hash` queries, not the document
most recently signed by wall clock — and the empty string when no such
document exists (first in chain). -/
theorem c3_chain_linkage (db : DB) (today : SDate) (now : Nat) (p p' : Payment) (db' : DB)
    (hok : sign_invoice db today now p = .ok (p', db')) :
    (db.payments.filter (fun q =>
        q.invoice_type == p.invoice_type && q.is_signed && q.invoice_hash.isSome) = [] →
      p'.previous_invoice_hash = some "") ∧
    (∀ m ∈ db.payments.filter (fun q =>
        q.invoice_type == p.invoice_type && q.is_signed && q.invoice_hash.isSome),
      (∀ q ∈ db.payments.filter (fun q =>
          q.invoice_type == p.invoice_type && q.is_signed && q.invoice_hash.isSome),
        q = m ∨ pairGt (dateOptKey m.invoice_date, m.paymentID)
                       (dateOptKey q.invoice_date, q.paymentID) = true) →
      p'.previous_invoice_hash = some (m.invoice_hash.getD "")) := by
  obtain ⟨hp8, -⟩ := sign_invoice_ok hok
  subst hp8
  rw [signedFields_previous_hash]
  constructor
  · intro hempty
    rw [get_previous_invoice_hash, hempty]
    rfl
  · intro m hm hmax
    rw [get_previous_invoice_hash]
    obtain ⟨r, hr⟩ := @pickMax_isSome _
      (fun q m' => pairGt (dateOptKey q.invoice_date, q.paymentID)
        (dateOptKey m'.invoice_date, m'.paymentID))
      (db.payments.filter (fun q =>
        q.invoice_type == p.invoice_type && q.is_signed && q.invoice_hash.isSome))
      (by intro h; rw [h] at hm; cases hm)
    rw [hr]
    have hrmem := pickMax_mem hr
    have hbest := @pickMax_best _
      (fun (q m' : Payment) => pairGt (dateOptKey q.invoice_date, q.paymentID)
        (dateOptKey m'.invoice_date, m'.paymentID)) _ _
      (fun x => by exact pairGt_irrefl _)
      (fun x y z h1 h2 => by exact pairGt_trans h1 h2)
      (fun x y z h1 h2 => by exact pairGt_negtrans h1 h2)
      hr
    rcases hmax r hrmem with rfl | hgt
    · rfl
    · have hb : pairGt (dateOptKey m.invoice_date, m.paymentID)
          (dateOptKey r.invoice_date, r.paymentID) = false := hbest m hm
      rw [hb] at hgt
      exact Bool.noConfusion hgt

/-- C3 counterexample to the claim as stated: in a state where the document
most recently signed (by signing timestamp) is `pB3` but `pA3` carries the
later invoice date, a new signing stores `pA3`'s hash as `previousHash` —
`get_previous_invoice_hash` orders by `(-invoice_date, -paymentID)`, not by
signing time. -/
theorem c3_counterexample :
    (sign_invoice dbAB ⟨2025, 6, 2⟩ 300 draftC).toOption.map
        (fun r => r.1.previous_invoice_hash) = some (some hashA) ∧
    claimMostRecentlySigned dbAB "FT" = some pB3 ∧
    pB3.invoice_hash = some hashB ∧
    hashA ≠ hashB :=
  ⟨by decide, by decide, by decide, by decide⟩

/-- Concrete instantiation of the C3 chain-linkage theorem. -/
theorem c3_chain_linkage_witness :
    ∃ p' db', sign_invoice dbAB ⟨2025, 6, 2⟩ 300 draftC = .ok (p', db') ∧
      p'.previous_invoice_hash = some (pA3.invoice_hash.getD "") := by
  have hok : (sign_invoice dbAB ⟨2025, 6, 2⟩ 300 draftC).isOk = true := by decide
  rcases hres : sign_invoice dbAB ⟨2025, 6, 2⟩ 300 draftC with e | pr
  · rw [hres] at hok
    exact Bool.noConfusion hok
  · obtain ⟨p', db'⟩ := pr
    have h2 := (c3_chain_linkage dbAB ⟨2025, 6, 2⟩ 300 draftC p' db' hres).2 pA3
      (by decide) (by decide)
    exact ⟨p', db', rfl, h2⟩

/-- C9 (amended): a successful `sign_invoice` changes only the fiscal fields
of the signed payment's row and leaves every other payment and the settings
untouched — but, through `Payment.save` calling
`Order.update_payment_status`, it additionally rewrites the owning order's
row: `paymentStatus` is recomputed from the order's COMPLETED payments and
`updated_at` is refreshed. -/
theorem c9_sign_frame (db : DB) (today : SDate) (now : Nat) (p p' : Payment) (db' : DB)
    (hok : sign_invoice db today now p = .ok (p', db')) :
    db'.settings = db.settings ∧
    (∀ q ∈ db.payments, q.paymentID ≠ p.paymentID → q ∈ db'.payments) ∧
    (∀ q ∈ db'.payments, q.paymentID ≠ p.paymentID → q ∈ db.payments) ∧
    p'.paymentID = p.paymentID ∧ p'.orderId = p.orderId ∧ p'.amount = p.amount ∧
    p'.payment_method = p.payment_method ∧ p'.payment_status = p.payment_status ∧
    p'.transaction_id = p.transaction_id ∧ p'.customer_tax_id = p.customer_tax_id ∧
    p'.customer_name = p.customer_name ∧ p'.referenced_document = p.referenced_document ∧
    p'.credit_note_reason = p.credit_note_reason ∧ p'.invoice_type = p.invoice_type ∧
    p'.is_signed = true ∧
    (∀ o ∈ db.orders, o.orderID ≠ p.orderId → o ∈ db'.orders) ∧
    (∀ o ∈ db.orders, o.orderID = p.orderId →
      { o with
        paymentStatus :=
          if (upsert db.payments p').any
              (fun q => q.orderId == p.orderId && q.payment_status == "COMPLETED")
          then "PAID" else "PENDING",
        updated_at := now } ∈ db'.orders) := by
  obtain ⟨hp8, hsave⟩ := sign_invoice_ok hok
  obtain ⟨hdb, -⟩ := payment_save_ok hsave
  obtain ⟨hf1, hf2, hf3, hf4, hf5, hf6, hf7, hf8, hf9, hf10, hf11, hf12, -⟩ :=
    signedFields_frame db today now p
  subst hp8
  subst hdb
  refine ⟨rfl, ?_, ?_, hf1, hf2, hf3, hf4, hf5, hf6, hf7, hf8, hf9, hf10, hf11, hf12, ?_, ?_⟩
  · intro q hq hne
    rw [order_update_payments]
    exact upsert_mem_of_ne hq (by rw [hf1]; exact hne)
  · intro q hq hne
    rw [order_update_payments] at hq
    exact mem_upsert_of_ne hq (by rw [hf1]; exact hne)
  · intro o ho hne
    show o ∈ List.map _ db.orders
    refine List.mem_map.mpr ⟨o, ho, ?_⟩
    rw [if_neg (by rw [hf2]; simpa using hne)]
  · intro o ho heq
    show _ ∈ List.map _ db.orders
    refine List.mem_map.mpr ⟨o, ho, ?_⟩
    rw [if_pos (by rw [hf2]; simpa using heq), hf2]

/-- C9 counterexample to the claim as stated: a successful signing rewrites
the owning order's row — its `paymentStatus` flips to PAID and its
`updated_at` is refreshed — so state outside the document does change. -/
theorem c9_counterexample :
    (sign_invoice db0 ⟨2025, 2, 3⟩ 777 draftA).toOption.map (fun r => r.2.orders) =
      some [⟨1, 10000, 1500, 11500, "PAID", 777⟩] ∧
    db0.orders = [⟨1, 10000, 1500, 11500, "PENDING", 0⟩] :=
  ⟨by decide, by decide⟩

/-- Concrete instantiation of the C9 frame theorem on a successful signing. -/
theorem c9_sign_frame_witness :
    ∃ p' db', sign_invoice db0 ⟨2025, 2, 3⟩ 777 draftA = .ok (p', db') ∧
      db'.settings = db0.settings ∧ p'.is_signed = true := by
  have hok : (sign_invoice db0 ⟨2025, 2, 3⟩ 777 draftA).isOk = true := by decide
  rcases hres : sign_invoice db0 ⟨2025, 2, 3⟩ 777 draftA with e | pr
  · rw [hres] at hok
    exact Bool.noConfusion hok
  · obtain ⟨p', db'⟩ := pr
    obtain ⟨hsettings, -, -, -, -, -, -, -, -, -, -, -, -, -, hsig, -⟩ :=
      c9_sign_frame db0 ⟨2025, 2, 3⟩ 777 draftA p' db' hres
    exact ⟨p', db', rfl, hsettings, hsig⟩

/-- C8 (amended): for every range `d1 ≤ d2` the export emits, in
`(invoice_date, invoice_no)` order, exactly the signed stored payments whose
invoice date lies in the range (unsigned drafts and undated rows are never
included); each entry copies the stored invoice number, date, hash (when the
stored hash is non-empty) and — only when additionally the stored previous
hash is non-empty — the stored previous hash, and a credit note carries its
referenced document's number and date and its reason code.  The export is a
pure read of the database state. -/
theorem c8_export (db : DB) (d1 d2 : SDate) (hle : d1.key ≤ d2.key) :
    (∃ l, List.Perm l (saftSelect db d1 d2) ∧
      List.Pairwise (fun p q => saftKeyLe p q = true) l ∧
      saft_sales_invoices db d1 d2 = l.map (saftEntry db)) ∧
    (∀ p ∈ saftSelect db d1 d2, p ∈ db.payments ∧ p.is_signed = true ∧
      ∃ d, p.invoice_date = some d ∧ d1.key ≤ d.key ∧ d.key ≤ d2.key) ∧
    (∀ p ∈ db.payments, p.is_signed = true →
      ∀ d, p.invoice_date = some d → d1.key ≤ d.key → d.key ≤ d2.key →
      p ∈ saftSelect db d1 d2) ∧
    (∀ p : Payment, p.invoice_hash.getD "" ≠ "" →
      (saftEntry db p).hashText = p.invoice_hash ∧
      (saftEntry db p).previousHashText =
        (if p.previous_invoice_hash.getD "" ≠ "" then p.previous_invoice_hash else none)) ∧
    (∀ (p r : Payment), p.invoice_type = "NC" → refDoc db p = some r →
      (saftEntry db p).docRef = some ⟨r.invoice_no, r.invoice_date⟩ ∧
      (p.credit_note_reason.getD "" ≠ "" →
        (saftEntry db p).issueReasonCode = p.credit_note_reason)) ∧
    (∀ p : Payment, (saftEntry db p).invoiceNo = p.invoice_no ∧
      (saftEntry db p).invoiceDate = p.invoice_date) := by
  refine ⟨⟨isort saftKeyLe (saftSelect db d1 d2),
      isort_perm _ _, isort_pairwise _ saftKeyLe_total saftKeyLe_trans _, rfl⟩,
    ?_, ?_, ?_, ?_, ?_⟩
  · intro p hp
    obtain ⟨hmem, hpred⟩ := List.mem_filter.mp hp
    simp only [Bool.and_eq_true] at hpred
    refine ⟨hmem, hpred.1, ?_⟩
    have h2 := hpred.2
    cases hd : p.invoice_date with
    | none => rw [hd] at h2; exact Bool.noConfusion h2
    | some d =>
      rw [hd] at h2
      simp only [Bool.and_eq_true, decide_eq_true_eq] at h2
      exact ⟨d, rfl, h2.1, h2.2⟩
  · intro p hmem hsig d hd h1 h2
    refine List.mem_filter.mpr ⟨hmem, ?_⟩
    rw [hsig, hd]
    simp [h1, h2]
  · intro p hh
    constructor
    · show (if p.invoice_hash.getD "" ≠ "" then p.invoice_hash else none) = p.invoice_hash
      rw [if_pos hh]
    · show (if p.invoice_hash.getD "" ≠ "" ∧ p.previous_invoice_hash.getD "" ≠ ""
          then p.previous_invoice_hash else none) = _
      by_cases hp : p.previous_invoice_hash.getD "" ≠ ""
      · rw [if_pos ⟨hh, hp⟩, if_pos hp]
      · rw [if_neg (fun hc => hp hc.2), if_neg hp]
  · intro p r htype href
    constructor
    · show (if p.invoice_type = "NC" then _ else none) = _
      rw [if_pos htype, href]
    · intro hreason
      show (if p.invoice_type = "NC" ∧ (refDoc db p).isSome ∧ p.credit_note_reason.getD "" ≠ ""
          then p.credit_note_reason else none) = _
      rw [if_pos ⟨htype, by rw [href]; rfl, hreason⟩]
  · intro p
    exact ⟨rfl, rfl⟩

/-- C8 counterexample to the claim as stated: a signed first-in-chain
document stores `previousHash = ""`, and its export entry omits the
`PreviousHash` element instead of carrying the stored value. -/
theorem c8_counterexample :
    saft_sales_invoices dbSigned ⟨2025, 1, 1⟩ ⟨2025, 12, 31⟩ =
      [{ invoiceNo := some "FT A/2025/00001", invoiceType := "FT",
         invoiceDate := some ⟨2025, 1, 2⟩, docRef := none, issueReasonCode := none,
         hashText := some hashA, hashControl := some "0", previousHashText := none }] ∧
    signedA.previous_invoice_hash = some "" :=
  ⟨by decide, by decide⟩

/-- Concrete instantiation of the C8 export theorem. -/
theorem c8_export_witness :
    ∃ l, List.Perm l (saftSelect dbSigned ⟨2025, 1, 1⟩ ⟨2025, 12, 31⟩) ∧
      saft_sales_invoices dbSigned ⟨2025, 1, 1⟩ ⟨2025, 12, 31⟩ =
        l.map (saftEntry dbSigned) := by
  obtain ⟨l, h1, h2, h3⟩ := (c8_export dbSigned ⟨2025, 1, 1⟩ ⟨2025, 12, 31⟩ (by decide)).1
  exact ⟨l, h1, h3⟩

/-- C1 (amended): allocation is gap-free and duplicate-free per
`(series, year, invoice_type)` — not per `(series, year)` alone, since FT and
FR share `invoice_series` — and only while the configured series contains no
`/` and the numbers stay in the five-digit range `1..99999` (the string
`order_by('-invoice_no')` breaks past it).  Under those conditions: with no
stored number under the `series/year/` prefix for the type the allocator
returns number 1; when the stored numbers under the prefix are well-formed
with maximum `n ≤ 99998` it returns `n + 1`, zero-padded to five digits as
`series/year/NNNNN`; and after a run of `N ≤ 99999` successful signings of
fresh blank drafts of the type starting from a store with no number under
the prefix, the stored prefixed numbers are exactly
`series/year/00001 .. series/year/NNNNN` for `{1, ..., N}` — no duplicates,
no gaps. -/
theorem c1_gap_free_numbering (st : CompanySettings) (t : String)
    (hser : ∀ c ∈ (seriesFor st t).data, c ≠ '/') :
    (∀ (db : DB) (year : Nat), db.settings = st →
      db.payments.filter (fun p =>
        pyStartsWith (invoiceNoPfx st year t) (p.invoice_no.getD "").data &&
        p.invoice_type == t) = [] →
      generate_invoice_number db year t = ⟨invoiceNoPfx st year t ++ decPad 5 1⟩) ∧
    (∀ (db : DB) (year n : Nat), db.settings = st → 1 ≤ n → n ≤ 99998 →
      (∀ q ∈ db.payments.filter (fun p =>
          pyStartsWith (invoiceNoPfx st year t) (p.invoice_no.getD "").data &&
          p.invoice_type == t),
        ∃ k, 1 ≤ k ∧ k ≤ 99999 ∧
          q.invoice_no = some ⟨invoiceNoPfx st year t ++ decPad 5 k⟩) →
      (∃ q ∈ db.payments.filter (fun p =>
          pyStartsWith (invoiceNoPfx st year t) (p.invoice_no.getD "").data &&
          p.invoice_type == t),
        q.invoice_no = some ⟨invoiceNoPfx st year t ++ decPad 5 n⟩) →
      (∀ q ∈ db.payments.filter (fun p =>
          pyStartsWith (invoiceNoPfx st year t) (p.invoice_no.getD "").data &&
          p.invoice_type == t),
        ∀ k, 1 ≤ k → k ≤ 99999 →
          q.invoice_no = some ⟨invoiceNoPfx st year t ++ decPad 5 k⟩ → k ≤ n) →
      generate_invoice_number db year t = ⟨invoiceNoPfx st year t ++ decPad 5 (n + 1)⟩) ∧
    (∀ (today : SDate) (now : Nat) (drafts : List Payment) (db db' : DB),
      db.settings = st →
      drafts.length ≤ 99999 →
      (∀ p ∈ drafts, p.invoice_type = t ∧ p.invoice_no.getD "" = "") →
      List.Pairwise (fun a b => a.paymentID ≠ b.paymentID) drafts →
      (∀ p ∈ drafts, ∀ q ∈ db.payments, q.paymentID ≠ p.paymentID) →
      db.payments.filter (fun p =>
        pyStartsWith (invoiceNoPfx st today.year t) (p.invoice_no.getD "").data &&
        p.invoice_type == t) = [] →
      signRun today now db drafts = .ok db' →
      List.Perm (allocatedNos (invoiceNoPfx st today.year t) t db'.payments)
        ((List.range drafts.length).map
          (fun i => (⟨invoiceNoPfx st today.year t ++ decPad 5 (i + 1)⟩ : String))) ∧
      (allocatedNos (invoiceNoPfx st today.year t) t db'.payments).Nodup) := by
  refine ⟨?_, ?_, ?_⟩
  · intro db year hst hempty
    have h := generate_empty db year t (by rw [hst]; exact hempty)
    rw [hst] at h
    rw [h, show "00001".data = decPad 5 1 from by decide]
  · intro db year n hst hn1 hn2 hall hmem hmax
    rw [← hst] at hall hmem hmax
    have h := generate_step db year t n (by rw [hst]; exact hser) hall hn1 (by omega) hmem hmax
    rw [hst] at h
    have h5 : (10 : Nat) ^ 5 = 100000 := by norm_num
    rw [h, pyFmtNat, if_pos (by omega)]
  · intro today now drafts db db' hst hlen hdr hpw hfresh hempty hrun
    have hperm0 : List.Perm (allocatedNos (invoiceNoPfx st today.year t) t db.payments)
        ((List.range 0).map
          (fun i => (⟨invoiceNoPfx st today.year t ++ decPad 5 (i + 1)⟩ : String))) := by
      rw [allocatedNos_eq_map_filter, hempty]
      rfl
    have hperm := signRun_perm today now t st hser drafts db 0 db' hst (by omega) hdr hpw
      hfresh hperm0 hrun
    rw [Nat.zero_add] at hperm
    have h5 : (10 : Nat) ^ 5 = 100000 := by norm_num
    have hnd : ((List.range drafts.length).map
        (fun i => (⟨invoiceNoPfx st today.year t ++ decPad 5 (i + 1)⟩ : String))).Nodup := by
      refine (List.nodup_range _).map_on ?_
      intro i hi j hj hij
      have hi' := List.mem_range.mp hi
      have hj' := List.mem_range.mp hj
      have hps := List.append_cancel_left (strMk_inj.mp hij)
      have := decPad_inj (by norm_num) (by omega) (by omega) hps
      omega
    exact ⟨hperm, hperm.nodup_iff.mpr hnd⟩

/-- C1 counterexample to the claim as stated (per `(series, year)` alone,
for all states): (1) an FR payment already holds number 1 of the shared
series `FT A` for 2025, so the highest allocated number for that series and
year is 1, yet `generate_invoice_number` for FT returns number 1 again — a
duplicate, not `n + 1`; (2) with numbers 99999 and 100000 stored, the
highest allocated number is 100000, yet the string-descending `order_by`
picks `99999` as the last number and the allocator returns 100000 again —
a duplicate, not 100001. -/
theorem c1_counterexample :
    (claimHighestAllocated dbFR "FT A" 2025 = some 1 ∧
     generate_invoice_number dbFR 2025 "FT" = "FT A/2025/00001" ∧
     pFR1 ∈ dbFR.payments ∧ pFR1.invoice_no = some "FT A/2025/00001") ∧
    (claimHighestAllocated db99 "FT A" 2025 = some 100000 ∧
     generate_invoice_number db99 2025 "FT" = "FT A/2025/100000" ∧
     p99b ∈ db99.payments ∧ p99b.invoice_no = some "FT A/2025/100000") :=
  ⟨⟨by decide, by decide, by decide, by decide⟩,
   ⟨by decide, by decide, by decide, by decide⟩⟩

/-- Concrete instantiation of the three C1 conclusions: the empty case, the
step case at `n = 7`, and a one-draft signing run from an empty store. -/
theorem c1_gap_free_numbering_witness :
    generate_invoice_number dbE 2025 "FT" = ⟨invoiceNoPfx stA 2025 "FT" ++ decPad 5 1⟩ ∧
    generate_invoice_number dbSeven 2025 "FT" =
      ⟨invoiceNoPfx stA 2025 "FT" ++ decPad 5 (7 + 1)⟩ ∧
    ∃ db', signRun ⟨2025, 2, 3⟩ 777 dbE [draftA] = .ok db' ∧
      List.Perm (allocatedNos (invoiceNoPfx stA 2025 "FT") "FT" db'.payments)
        ((List.range (List.length [draftA])).map
          (fun i => (⟨invoiceNoPfx stA 2025 "FT" ++ decPad 5 (i + 1)⟩ : String))) := by
  have hfl : dbSeven.payments.filter (fun p =>
      pyStartsWith (invoiceNoPfx stA 2025 "FT") (p.invoice_no.getD "").data &&
      p.invoice_type == "FT") = [pSeven] := by decide
  have hc := c1_gap_free_numbering stA "FT" (by decide)
  refine ⟨hc.1 dbE 2025 rfl rfl, ?_, ?_⟩
  · refine hc.2.1 dbSeven 2025 7 rfl (by decide) (by decide) ?_ ?_ ?_
    · intro q hq
      rw [hfl] at hq
      have hq7 : q = pSeven := by simpa using hq
      subst hq7
      exact ⟨7, by decide, by decide, by decide⟩
    · exact ⟨pSeven, by decide, by decide⟩
    · intro q hq k hk1 hk2 hqno
      rw [hfl] at hq
      have hq7 : q = pSeven := by simpa using hq
      subst hq7
      have h7 : (⟨invoiceNoPfx stA 2025 "FT" ++ decPad 5 7⟩ : String) = "FT A/2025/00007" := by
        decide
      have hs : some ("FT A/2025/00007" : String) =
          some (⟨invoiceNoPfx stA 2025 "FT" ++ decPad 5 k⟩ : String) := by
        rw [← hqno]
        rfl
      injection hs with hs
      rw [← h7] at hs
      have hps := List.append_cancel_left (strMk_inj.mp hs)
      have h5 : (10 : Nat) ^ 5 = 100000 := by norm_num
      have := decPad_inj (by norm_num) (by omega) (by omega) hps
      omega
  · have hok : (signRun ⟨2025, 2, 3⟩ 777 dbE [draftA]).isOk = true := by decide
    rcases hres : signRun ⟨2025, 2, 3⟩ 777 dbE [draftA] with e | db'
    · rw [hres] at hok
      exact Bool.noConfusion hok
    · exact ⟨db', rfl, (hc.2.2 ⟨2025, 2, 3⟩ 777 [draftA] dbE db' rfl (by decide) (by decide)
        (by decide) (by decide) rfl hres).1⟩

end Restaurant
